import Mathlib

/-!
Verification development for the pagination session and deterministic-regeneration
subsystem of the realistic-data-generator service (src/app.js).

The JavaScript source is shallowly embedded: JS numbers used as integers become
`Int`/`Nat` with explicit wrapping to 32-bit where the source relies on it,
JS strings become Lean strings (values are kept as `List Char` so that the
character-level operations of the source are direct list operations), JS objects
used as records become association lists in insertion order, and the third-party
value-generator library (faker) becomes an abstract deterministic oracle driven
by an explicit seeded generator state, reflecting that reseeding the library
fixes all subsequent draws.
-/

namespace DataGen

/-! ## JS 32-bit integer arithmetic -/

/-- JS `ToInt32`: wrap an integer into the signed 32-bit range, as performed by
the bitwise operators `<<` and `&` in `generatePageSeed`. -/
def jsInt32 (x : Int) : Int :=
  (x + 2147483648) % 4294967296 - 2147483648

theorem jsInt32_emod_self (a : Int) : jsInt32 a % 4294967296 = a % 4294967296 := by
  unfold jsInt32
  omega

theorem jsInt32_congr {a b : Int} (h : a % 4294967296 = b % 4294967296) :
    jsInt32 a = jsInt32 b := by
  unfold jsInt32
  omega

/-! ## Splitting a string on underscore (JS `String.prototype.split('_')`) -/

/-- JS `s.split('_')` on the character list of `s`: the list of maximal
underscore-free segments (JS split with a single-character separator). -/
def jsSplitU : List Char → List (List Char)
  | [] => [[]]
  | c :: rest =>
    if c = '_' then [] :: jsSplitU rest
    else
      match jsSplitU rest with
      | [] => [[c]]
      | a :: t => (c :: a) :: t

/-- The suffix of a character list after its last underscore (the whole list when
no underscore occurs). This is the plain-language reading of "the substring of
sessionId after its last underscore". -/
def suffixAfterLastUnderscore : List Char → List Char
  | [] => []
  | c :: rest =>
    if '_' ∈ rest then suffixAfterLastUnderscore rest
    else if c = '_' then rest
    else c :: suffixAfterLastUnderscore rest

theorem suffixAfterLastUnderscore_of_not_mem {l : List Char} (h : '_' ∉ l) :
    suffixAfterLastUnderscore l = l := by
  induction l with
  | nil => rfl
  | cons c rest ih =>
    have hc : c ≠ '_' := fun hc => h (hc ▸ List.mem_cons_self c rest)
    have hr : '_' ∉ rest := fun hm => h (List.mem_cons_of_mem c hm)
    simp only [suffixAfterLastUnderscore, if_neg hr, if_neg hc]
    rw [ih hr]

theorem jsSplitU_decomp (l : List Char) :
    ∃ pre, jsSplitU l = pre ++ [suffixAfterLastUnderscore l] ∧ (pre = [] ↔ '_' ∉ l) := by
  induction l with
  | nil => exact ⟨[], rfl, by simp⟩
  | cons c rest ih =>
    obtain ⟨pre, hp, hiff⟩ := ih
    by_cases hc : c = '_'
    · subst hc
      refine ⟨[] :: pre, ?_, ?_⟩
      · have hsuf : suffixAfterLastUnderscore ('_' :: rest) = suffixAfterLastUnderscore rest := by
          simp only [suffixAfterLastUnderscore]
          by_cases hm : '_' ∈ rest
          · simp [hm]
          · simp [hm, suffixAfterLastUnderscore_of_not_mem hm]
        rw [hsuf]
        show (if '_' = '_' then [] :: jsSplitU rest else _) = _
        rw [if_pos rfl, hp, List.cons_append]
      · constructor
        · intro h
          exact absurd h (by simp)
        · intro h
          exact absurd (List.mem_cons_self '_' rest) h
    · have hsuf : suffixAfterLastUnderscore (c :: rest) =
          if '_' ∈ rest then suffixAfterLastUnderscore rest
          else c :: suffixAfterLastUnderscore rest := by
        simp only [suffixAfterLastUnderscore, if_neg hc]
      have hstep : jsSplitU (c :: rest) =
          match jsSplitU rest with
          | [] => [[c]]
          | a :: t => (c :: a) :: t := by
        show (if c = '_' then _ else _) = _
        rw [if_neg hc]
      match hpre : pre with
      | [] =>
        have hm : '_' ∉ rest := hiff.mp rfl
        refine ⟨[], ?_, ?_⟩
        · rw [List.nil_append] at hp
          rw [hstep, hp, hsuf, if_neg hm, List.nil_append]
        · constructor
          · intro _
            intro hmem
            rcases List.mem_cons.mp hmem with h | h
            · exact hc h.symm
            · exact hm h
          · intro _
            rfl
      | a :: pre2 =>
        have hm : '_' ∈ rest := by
          by_contra hmn
          exact absurd (hiff.mpr hmn) (by simp [hpre])
        refine ⟨(c :: a) :: pre2, ?_, ?_⟩
        · rw [hstep, hp, hsuf, if_pos hm, List.cons_append]
          rfl
        · constructor
          · intro h
            exact absurd h (by simp)
          · intro h
            exact absurd (List.mem_cons_of_mem c hm) h

theorem getLastD_append_singleton :
    ∀ (pre : List (List Char)) (s d : List Char), (pre ++ [s]).getLastD d = s := by
  intro pre
  induction pre with
  | nil => intro s d; rfl
  | cons a t ih =>
    intro s d
    rw [List.cons_append, List.getLastD_cons]
    exact ih s a

theorem getLastD_jsSplitU (l : List Char) :
    (jsSplitU l).getLastD [] = suffixAfterLastUnderscore l := by
  obtain ⟨pre, hp, _⟩ := jsSplitU_decomp l
  rw [hp, getLastD_append_singleton]

/-! ## Deterministic page-seed derivation (`generatePageSeed`, src/app.js:219-234) -/

/-- One iteration of the rolling hash in `generatePageSeed`:
`hash = ((hash << 5) - hash) + char; hash = hash & hash`. -/
def hashStep (h : Int) (c : Char) : Int :=
  jsInt32 (jsInt32 (jsInt32 h * 32) - h + c.toNat)

/-- `generatePageSeed(sessionId, pageNumber)` (src/app.js:219-234):
split the session id on underscores and take the final segment, append the
decimal rendering of the page number, fold the rolling hash over the characters,
and return the absolute value. -/
def generatePageSeed (sessionId : String) (pageNumber : Int) : Nat :=
  let sessionHash := (jsSplitU sessionId.data).getLastD []
  let pageHash := (toString pageNumber).data
  let combined := sessionHash ++ pageHash
  (combined.foldl hashStep 0).natAbs

/-- The seed-derivation step exactly as the specification words it: multiply the
accumulator by 31, add the character code, wrap to a 32-bit signed integer. -/
def specHashStep (h : Int) (c : Char) : Int :=
  jsInt32 (h * 31 + c.toNat)

/-- Seed derivation as described by the specification: the substring of the
session id after its last underscore, concatenated with the decimal string of
the page number, folded with the `*31 + charCode` 32-bit-wrapped hash, with the
absolute value of the final accumulator returned. -/
def deriveSeedSpec (sessionId : String) (pageNumber : Int) : Nat :=
  let sessionHash := suffixAfterLastUnderscore sessionId.data
  let pageHash := (toString pageNumber).data
  let combined := sessionHash ++ pageHash
  (combined.foldl specHashStep 0).natAbs

theorem hashStep_eq_specHashStep : hashStep = specHashStep := by
  funext h c
  unfold hashStep specHashStep
  apply jsInt32_congr
  have h1 : jsInt32 h % 4294967296 = h % 4294967296 := jsInt32_emod_self h
  have h2 : jsInt32 (jsInt32 h * 32) % 4294967296 = (jsInt32 h * 32) % 4294967296 :=
    jsInt32_emod_self (jsInt32 h * 32)
  omega

/-! ## JS scalar values -/

/-- A scalar JSON value as produced by the value generator: a string (kept as a
character list), an integer number, or a boolean. -/
inductive Value where
  | str : List Char → Value
  | num : Int → Value
  | bool : Bool → Value
deriving Repr, DecidableEq

/-- Decimal digit character for a digit below ten. -/
def digitChar (d : Nat) : Char :=
  match d with
  | 0 => '0' | 1 => '1' | 2 => '2' | 3 => '3' | 4 => '4'
  | 5 => '5' | 6 => '6' | 7 => '7' | 8 => '8' | _ => '9'

/-- The decimal character rendering of a natural number, as JS `String(n)`. -/
def natChars (n : Nat) : List Char :=
  if n = 0 then ['0'] else ((Nat.digits 10 n).map digitChar).reverse

/-- The decimal character rendering of an integer, as JS `String(n)`. -/
def intChars (n : Int) : List Char :=
  if n < 0 then '-' :: natChars n.natAbs else natChars n.natAbs

/-- JS `String(value)` coercion of a scalar value. -/
def valueChars : Value → List Char
  | .str s => s
  | .num n => intChars n
  | .bool b => if b then ['t', 'r', 'u', 'e'] else ['f', 'a', 'l', 's', 'e']

/-! ## Emoji detection and removal (src/app.js:1052-1070) -/

/-- A character matched by the emoji regex of `containsEmoji`/`removeEmojis`:
the union of the ten Unicode code-point ranges in the source. -/
def isEmojiChar (c : Char) : Bool :=
  let n := c.toNat
  (0x1F600 ≤ n && n ≤ 0x1F64F) || (0x1F300 ≤ n && n ≤ 0x1F5FF) ||
  (0x1F680 ≤ n && n ≤ 0x1F6FF) || (0x1F1E0 ≤ n && n ≤ 0x1F1FF) ||
  (0x2600 ≤ n && n ≤ 0x26FF) || (0x2700 ≤ n && n ≤ 0x27BF) ||
  (0x1F900 ≤ n && n ≤ 0x1F9FF) || (0x1F018 ≤ n && n ≤ 0x1F270) ||
  (0x238C ≤ n && n ≤ 0x2454) || (0x20D0 ≤ n && n ≤ 0x20FF)

theorem isEmojiChar_eq_false_of_lt {c : Char} (h : c.toNat < 0x20D0) :
    isEmojiChar c = false := by
  simp only [isEmojiChar, Bool.or_eq_false_iff, Bool.and_eq_false_iff,
    decide_eq_false_iff_not, not_le]
  omega

/-- Whitespace characters removed by JS `String.prototype.trim` (the ones that
can occur in generated values). -/
def jsWhitespace (c : Char) : Bool :=
  c = ' ' || c = '\t' || c = '\n' || c = '\r' || c.toNat = 11 || c.toNat = 12

/-- JS `s.trim()`: strip leading and trailing whitespace. -/
def jsTrim (s : List Char) : List Char :=
  ((s.dropWhile jsWhitespace).reverse.dropWhile jsWhitespace).reverse

/-- `containsEmoji(text)` (src/app.js:1052-1060): false for non-strings, else
whether any character falls into one of the emoji code-point ranges. -/
def containsEmoji : Value → Bool
  | .str s => s.any isEmojiChar
  | _ => false

/-- `removeEmojis(text)` (src/app.js:1062-1070): non-strings are returned
unchanged; strings have every emoji-range character removed and are trimmed. -/
def removeEmojis : Value → Value
  | .str s => .str (jsTrim (s.filter (fun c => !isEmojiChar c)))
  | v => v

/-! ## Field-type catalog and string/non-string classification -/

/-- `FIELD_TYPES` (src/app.js:164-204): the fixed ordered field-type catalog. -/
def FIELD_TYPES : List String :=
  ["uuid",
   "firstName", "lastName", "fullName", "middleName", "gender", "birthDate", "age",
   "bio", "jobTitle", "suffix", "prefix", "phone", "phoneNumber",
   "address", "streetName", "buildingNumber", "city", "state", "country",
   "zipCode", "latitude", "longitude", "timezone",
   "company", "department", "catchPhrase", "buzzword", "salary", "accountNumber",
   "routingNumber", "creditCard", "currency", "price", "transactionType",
   "bitcoinAddress", "bankName", "iban",
   "email", "website", "username", "password", "domainName", "ip", "ipv6",
   "mac", "userAgent", "protocol", "port", "emoji",
   "productName", "productDescription", "productMaterial", "productAdjective",
   "rating", "isbn", "ean", "productCategory",
   "vehicle", "vehicleModel", "vehicleManufacturer", "vehicleType", "vehicleFuel", "vin",
   "fileName", "fileExtension", "mimeType", "directoryPath", "semver",
   "date", "recentDate", "futureDate", "weekday", "month",
   "description", "sentence", "paragraph", "words", "slug", "title",
   "nanoid", "color", "hexColor", "number", "boolean",
   "imei", "creditCardCVV", "licenseNumber"]

/-- The field types of `isStringFieldType` that generate non-string values
(src/app.js:1075-1085). -/
def nonStringFieldTypes : List String :=
  ["age", "latitude", "longitude", "salary", "price", "number", "rating", "port", "boolean"]

/-- `isStringFieldType(fieldType)` (src/app.js:1072-1088). -/
def isStringFieldType (fieldType : String) : Bool :=
  !(nonStringFieldTypes.contains fieldType)

/-! ## Field-length maps (JS objects keyed by field type) -/

/-- A field-length map entry value: `some n` is a numeric target length, `none`
is the JS `null` "never normalize" sentinel. -/
abbrev LengthEntry := Option Nat

/-- The field-length map: an association list in key-insertion order, with
unique keys, mirroring a JS object keyed by field-type tag. -/
abbrev FLMap := List (String × LengthEntry)

/-- Lookup of a key (JS `map[key]` together with `hasOwnProperty`): `none` when
the key is absent, `some v` when present with value `v`. -/
def flmLookup (k : String) : FLMap → Option LengthEntry
  | [] => none
  | (k2, v) :: rest => if k2 = k then some v else flmLookup k rest

/-- JS object property assignment `map[key] = v`: overwrite in place when the
key exists, append otherwise. -/
def flmSet (k : String) (v : LengthEntry) (m : FLMap) : FLMap :=
  match m with
  | [] => [(k, v)]
  | (k2, v2) :: rest => if k2 = k then (k, v) :: rest else (k2, v2) :: flmSet k v rest

theorem flmLookup_set_self (k : String) (v : LengthEntry) (m : FLMap) :
    flmLookup k (flmSet k v m) = some v := by
  induction m with
  | nil => simp [flmSet, flmLookup]
  | cons e rest ih =>
    obtain ⟨k2, v2⟩ := e
    by_cases h : k2 = k
    · simp [flmSet, flmLookup, h]
    · simp [flmSet, flmLookup, h, ih]

theorem flmLookup_set_other {k k2 : String} (h : k2 ≠ k) (v : LengthEntry) (m : FLMap) :
    flmLookup k (flmSet k2 v m) = flmLookup k m := by
  induction m with
  | nil => simp [flmSet, flmLookup, h]
  | cons e rest ih =>
    obtain ⟨k3, v3⟩ := e
    by_cases h3 : k3 = k2
    · subst h3
      simp [flmSet, flmLookup, h, ih]
    · by_cases h4 : k3 = k
      · subst h4
        simp [flmSet, flmLookup, h3, Ne.symm h]
      · simp [flmSet, flmLookup, h3, h4, ih]

theorem flmSet_ne_nil (k : String) (v : LengthEntry) (m : FLMap) :
    flmSet k v m ≠ [] := by
  match m with
  | [] => simp [flmSet]
  | (k2, v2) :: rest =>
    simp only [flmSet]
    split <;> simp

/-! ## Records and the value-generator oracle -/

/-- A generated JSON record node: a scalar value or a nested object given by its
fields in insertion order. -/
inductive Json where
  | val : Value → Json
  | obj : List (String × Json) → Json

/-- The state of the third-party generator's seeded random source: the seed last
installed by `faker.seed` and the number of draws made since. -/
structure FakerState where
  seed : Nat
  draws : Nat
deriving Repr, DecidableEq

/-- The value-generator library as a deterministic oracle: `val seed draws t` is
the value `generateFieldValue(t)` returns when the random source is at state
`(seed, draws)`, and `pad seed draws` determines the index (taken modulo the
36-character alphabet) of the padding character drawn via
`faker.number.float({min: 0, max: 1})` in `enforceUniformLength`. Each draw
advances the state by one. -/
structure Oracle where
  val : Nat → Nat → String → Value
  pad : Nat → Nat → Nat

/-- Advance the generator state by one draw. -/
def FakerState.next (st : FakerState) : FakerState :=
  ⟨st.seed, st.draws + 1⟩

/-- `generateFieldValue(fieldType)` (src/app.js:1149-1354) as one oracle draw. -/
def generateFieldValue (O : Oracle) (fieldType : String) (st : FakerState) :
    Value × FakerState :=
  (O.val st.seed st.draws fieldType, st.next)

/-! ## Uniform-length enforcement (src/app.js:1091-1120) -/

/-- The fixed padding alphabet `'abcdefghijklmnopqrstuvwxyz0123456789'`. -/
def additionalChars : List Char :=
  ['a','b','c','d','e','f','g','h','i','j','k','l','m','n','o','p','q','r','s','t',
   'u','v','w','x','y','z','0','1','2','3','4','5','6','7','8','9']

/-- The padding `while` loop of `enforceUniformLength`: append pseudo-random
alphabet characters until the string reaches the target length. The drawn
float lies in `[0, 1)`, so `Math.floor(float * 36)` is a valid index below 36;
the oracle models it through `pad` reduced modulo 36. -/
def padLoop (O : Oracle) (target : Nat) (s : List Char) (st : FakerState) :
    List Char × FakerState :=
  if _h : s.length < target then
    let idx := O.pad st.seed st.draws % 36
    padLoop O target (s ++ [additionalChars.getD idx 'a']) st.next
  else (s, st)
termination_by target - s.length
decreasing_by
  simp only [List.length_append, List.length_cons, List.length_nil]
  omega

theorem padLoop_length_aux (O : Oracle) (target : Nat) :
    ∀ (k : Nat) (s : List Char) (st : FakerState), target - s.length ≤ k →
      s.length ≤ target → (padLoop O target s st).1.length = target := by
  intro k
  induction k with
  | zero =>
    intro s st hk h
    rw [padLoop]
    have hlt : ¬ s.length < target := by omega
    rw [dif_neg hlt]
    show s.length = target
    omega
  | succ k ih =>
    intro s st hk h
    rw [padLoop]
    by_cases hlt : s.length < target
    · rw [dif_pos hlt]
      apply ih
      · simp only [List.length_append, List.length_cons, List.length_nil]
        omega
      · simp only [List.length_append, List.length_cons, List.length_nil]
        omega
    · rw [dif_neg hlt]
      show s.length = target
      omega

theorem padLoop_length (O : Oracle) (target : Nat) (s : List Char) (st : FakerState)
    (h : s.length ≤ target) : (padLoop O target s st).1.length = target :=
  padLoop_length_aux O target (target - s.length) s st le_rfl h

theorem additionalChars_getD_mem (i : Nat) : additionalChars.getD i 'a' ∈ additionalChars := by
  by_cases hi : i < additionalChars.length
  · rw [List.getD_eq_getElem _ _ hi]
    exact List.getElem_mem _
  · rw [List.getD_eq_default _ _ (by omega)]
    simp [additionalChars]

theorem padLoop_chars_aux (O : Oracle) (target : Nat) :
    ∀ (k : Nat) (s : List Char) (st : FakerState) (c : Char), target - s.length ≤ k →
      c ∈ (padLoop O target s st).1 → c ∈ s ∨ c ∈ additionalChars := by
  intro k
  induction k with
  | zero =>
    intro s st c hk hc
    rw [padLoop] at hc
    have hlt : ¬ s.length < target := by omega
    rw [dif_neg hlt] at hc
    exact Or.inl hc
  | succ k ih =>
    intro s st c hk hc
    rw [padLoop] at hc
    by_cases hlt : s.length < target
    · rw [dif_pos hlt] at hc
      rcases ih _ _ c (by simp only [List.length_append, List.length_cons,
          List.length_nil]; omega) hc with h | h
      · rcases List.mem_append.mp h with h2 | h2
        · exact Or.inl h2
        · rcases List.mem_singleton.mp h2 with rfl
          exact Or.inr (additionalChars_getD_mem _)
      · exact Or.inr h
    · rw [dif_neg hlt] at hc
      exact Or.inl hc

theorem padLoop_chars (O : Oracle) (target : Nat) (s : List Char) (st : FakerState)
    (c : Char) (hc : c ∈ (padLoop O target s st).1) : c ∈ s ∨ c ∈ additionalChars :=
  padLoop_chars_aux O target (target - s.length) s st c le_rfl hc

/-- `enforceUniformLength(fieldValue, fieldType, useUniformLength)`
(src/app.js:1091-1120), with the process-global `FIELD_LENGTH_MAP` passed as
`flm` (`none` models the global being `null`). -/
def enforceUniformLength (O : Oracle) (flm : Option FLMap) (fieldValue : Value)
    (fieldType : String) (useUniformLength : Bool) (st : FakerState) :
    Value × FakerState :=
  match flm with
  | none => (fieldValue, st)
  | some m =>
    match useUniformLength, flmLookup fieldType m with
    | false, _ => (fieldValue, st)
    | true, none => (fieldValue, st)
    | true, some none => (fieldValue, st)
    | true, some (some targetLength) =>
      if isStringFieldType fieldType = false then (fieldValue, st)
      else
        let stringValue := valueChars fieldValue
        if stringValue.length > targetLength then
          (.str (stringValue.take targetLength), st)
        else if stringValue.length < targetLength then
          let p := padLoop O targetLength stringValue st
          (.str p.1, p.2)
        else (.str stringValue, st)

/-- JS `s.toLowerCase()` on the characters of a string. -/
def jsToLower (s : String) : List Char :=
  s.data.map Char.toLower

/-- JS `s.startsWith(p)` on character lists. -/
def listStartsWith : List Char → List Char → Bool
  | _, [] => true
  | [], _ :: _ => false
  | c :: cs, p :: ps => c = p && listStartsWith cs ps

/-- The characters of the literal `'emoji'`. -/
def emojiWord : List Char := ['e', 'm', 'o', 'j', 'i']

/-- The emoji-cleaning step of `validateAndCleanFieldValue`
(src/app.js:1127-1132): fields not named `emoji...` have emoji characters
stripped when present. -/
def cleanEmoji (fieldName : String) (fieldValue : Value) : Value :=
  if !(listStartsWith (jsToLower fieldName) emojiWord) && containsEmoji fieldValue then
    removeEmojis fieldValue
  else fieldValue

/-- `validateAndCleanFieldValue(fieldName, fieldValue, fieldType,
useUniformLength)` (src/app.js:1123-1146). -/
def validateAndCleanFieldValue (O : Oracle) (flm : Option FLMap) (fieldName : String)
    (fieldValue : Value) (fieldType : String) (useUniformLength : Bool)
    (st : FakerState) : Value × FakerState :=
  let processedValue := cleanEmoji fieldName fieldValue
  match flm with
  | none => (processedValue, st)
  | some m =>
    match useUniformLength, flmLookup fieldType m with
    | true, some (some _) =>
      enforceUniformLength O (some m) processedValue fieldType useUniformLength st
    | _, _ => (processedValue, st)

/-! ## Record assembly (src/app.js:1009-1050) -/

/-- The field type used at loop index `i`:
`FIELD_TYPES[i % FIELD_TYPES.length]`. -/
def fieldTypeAt (i : Nat) : String :=
  FIELD_TYPES.getD (i % FIELD_TYPES.length) ""

/-- The field name used at loop index `i`: `{fieldType}_{i+1}`. -/
def fieldNameAt (i : Nat) : String :=
  fieldTypeAt i ++ "_" ++ toString (i + 1)

/-- The basic-field loop shared by `generateObject` and `generateSimpleObject`:
produce `count` fields starting at loop index `i`, each named
`{fieldType}_{i+1}` with `fieldType = FIELD_TYPES[i % FIELD_TYPES.length]`. -/
def genFields (O : Oracle) (flm : Option FLMap) (useUniformLength : Bool) :
    Nat → Nat → FakerState → List (String × Json) × FakerState
  | 0, _, st => ([], st)
  | count + 1, i, st =>
    let raw := generateFieldValue O (fieldTypeAt i) st
    let v := validateAndCleanFieldValue O flm (fieldNameAt i) raw.1 (fieldTypeAt i)
      useUniformLength raw.2
    let rest := genFields O flm useUniformLength count (i + 1) v.2
    ((fieldNameAt i, .val v.1) :: rest.1, rest.2)

/-- `generateSimpleObject(numFields, useUniformLength)` (src/app.js:1038-1050). -/
def generateSimpleObject (O : Oracle) (flm : Option FLMap) (numFields : Nat)
    (useUniformLength : Bool) (st : FakerState) : Json × FakerState :=
  let fields := genFields O flm useUniformLength numFields 0 st
  (.obj fields.1, fields.2)

mutual

/-- `generateObject(numFields, numObjects, nestingLevel, nestedFields,
useUniformLength)` (src/app.js:1009-1035). -/
def generateObject (O : Oracle) (flm : Option FLMap) (useUniformLength : Bool)
    (nestingLevel numFields numObjects nestedFields : Nat) (st : FakerState) :
    Json × FakerState :=
  let fields := genFields O flm useUniformLength numFields 0 st
  match nestingLevel with
  | 0 => (.obj fields.1, fields.2)
  | level + 1 =>
    let nested :=
      genNestedObjects O flm useUniformLength level numObjects nestedFields numObjects 0 fields.2
    (.obj (fields.1 ++ nested.1), nested.2)
termination_by (nestingLevel, 0)

/-- The nested-object loop of `generateObject`: produce `count` nested objects
named `nested_object_{i+1}`, each one recursive (`level > 0`) or simple
(`level = 0`), where `level` is the parent nesting level minus one. -/
def genNestedObjects (O : Oracle) (flm : Option FLMap) (useUniformLength : Bool)
    (level numObjects nestedFields : Nat) :
    Nat → Nat → FakerState → List (String × Json) × FakerState
  | 0, _, st => ([], st)
  | count + 1, i, st =>
    let objectName := "nested_object_" ++ toString (i + 1)
    let child :=
      if 0 < level then
        generateObject O flm useUniformLength level nestedFields numObjects nestedFields st
      else
        generateSimpleObject O flm nestedFields useUniformLength st
    let rest :=
      genNestedObjects O flm useUniformLength level numObjects nestedFields count (i + 1) child.2
    ((objectName, child.1) :: rest.1, rest.2)
termination_by c _i _st => (level, c + 1)

end

/-! ## Length-schema sampling (src/app.js:286-332) -/

/-- The field type derived from a field name: `fieldName.split('_')[0]`. -/
def fieldTypeOfName (fieldName : String) : String :=
  ((jsSplitU fieldName.data).headD []).asString

/-- One assignment of `extractLengthsFromObject` for a scalar field: derive the
field type from the name, store the `null` sentinel for `uuid`/`nanoid` and
non-string field types, otherwise the length of `String(value)`. -/
def extractStep (fieldName : String) (v : Value) (m : FLMap) : FLMap :=
  let fieldType := fieldTypeOfName fieldName
  if fieldType = "uuid" || fieldType = "nanoid" then flmSet fieldType none m
  else if isStringFieldType fieldType = false then flmSet fieldType none m
  else flmSet fieldType (some (valueChars v).length) m

/-- The recursive walk of `extractLengthsFromObject` (src/app.js:295-326) over
the fields of a record, threading the length map. -/
def extractLengthsL : List (String × Json) → FLMap → FLMap
  | [], m => m
  | (fieldName, .val v) :: rest, m => extractLengthsL rest (extractStep fieldName v m)
  | (_, .obj fs) :: rest, m => extractLengthsL rest (extractLengthsL fs m)
termination_by l _ => sizeOf l
decreasing_by
  all_goals simp
  all_goals omega

/-- The fields of a record object (a generated record is always an object). -/
def objFields : Json → List (String × Json)
  | .obj fs => fs
  | .val _ => []

/-- `generateFieldLengthMapFromSample(numFields, numObjects, nestingLevel,
nestedFields)` (src/app.js:286-332): generate one natural sample record with
the current generator state and record per-type lengths. -/
def generateFieldLengthMapFromSample (O : Oracle)
    (numFields numObjects nestingLevel nestedFields : Nat) (st : FakerState) :
    FLMap × FakerState :=
  let sample := generateObject O none false nestingLevel numFields numObjects nestedFields st
  (extractLengthsL (objFields sample.1) [], sample.2)

/-! ## Page data generation (`generateRealisticData`, src/app.js:971-1006) -/

/-- The record loop of `generateRealisticData`: generate `count` records
starting at record index `i`; when a seed is present, the random source is
re-seeded to `seed + i * 1000` before each record. -/
def genRecords (O : Oracle) (flm : Option FLMap) (useUniformLength : Bool)
    (nestingLevel numFields numObjects nestedFields : Nat) (seed : Option Nat) :
    Nat → Nat → FakerState → List Json × FakerState
  | 0, _, st => ([], st)
  | count + 1, i, st =>
    let st0 := match seed with
      | some s => (⟨s + i * 1000, 0⟩ : FakerState)
      | none => st
    let record :=
      generateObject O flm useUniformLength nestingLevel numFields numObjects nestedFields st0
    let rest := genRecords O flm useUniformLength nestingLevel numFields numObjects
      nestedFields seed count (i + 1) record.2
    (record.1 :: rest.1, rest.2)

/-- Whether the process-global `FIELD_LENGTH_MAP` is absent or empty
(`!FIELD_LENGTH_MAP || Object.keys(FIELD_LENGTH_MAP).length === 0`). -/
def flmEmpty : Option FLMap → Bool
  | none => true
  | some m => m.isEmpty

/-- `generateRealisticData(numFields, numObjects, nestingLevel, numRecords,
nestedFields, useUniformLength, seed)` (src/app.js:971-1006). The process-global
`FIELD_LENGTH_MAP` enters as `g` and the updated global is returned: in uniform
mode an absent or empty global is regenerated from an unseeded sample record,
in natural mode the global is reset to `null`. When a seed is supplied the
random source is re-seeded before the run and before every record. -/
def generateRealisticData (O : Oracle) (g : Option FLMap)
    (numFields numObjects nestingLevel numRecords nestedFields : Nat)
    (useUniformLength : Bool) (seed : Option Nat) (st : FakerState) :
    List Json × Option FLMap × FakerState :=
  let gs :=
    if useUniformLength then
      if flmEmpty g then
        let m := generateFieldLengthMapFromSample O numFields numObjects nestingLevel
          nestedFields st
        ((some m.1, m.2) : Option FLMap × FakerState)
      else (g, st)
    else (none, st)
  let st2 := match seed with
    | some sd => (⟨sd, 0⟩ : FakerState)
    | none => gs.2
  let records := genRecords O gs.1 useUniformLength nestingLevel numFields numObjects
    nestedFields seed numRecords 0 st2
  (records.1, gs.1, records.2)

/-! ## Session store (`SCHEMA_CACHE`, src/app.js:206-283) -/

/-- `SCHEMA_TTL` (src/app.js:211): ten minutes in milliseconds. -/
def SCHEMA_TTL : Nat := 10 * 60 * 1000

/-- The stored per-session generation configuration (src/app.js:495-503). -/
structure SessionConfig where
  numFields : Nat
  numObjects : Nat
  numNesting : Nat
  totalRecords : Nat
  nestedFields : Nat
  uniformFieldLength : Bool
  recordsPerPage : Nat
deriving Repr, DecidableEq

/-- A `SCHEMA_CACHE` entry (src/app.js:250-256). -/
structure CachedData where
  config : SessionConfig
  fieldLengthMap : Option FLMap
  hasFixedFieldLength : Bool
  expiresAt : Nat
  createdAt : Nat
deriving Repr, DecidableEq

/-- The session store: the `SCHEMA_CACHE` map from session id to cached data,
as an association list in insertion order with unique keys. -/
abbrev Store := List (String × CachedData)

/-- `SCHEMA_CACHE.get(sessionId)`. -/
def storeLookup (sid : String) : Store → Option CachedData
  | [] => none
  | (k, d) :: rest => if k = sid then some d else storeLookup sid rest

/-- `SCHEMA_CACHE.set(sessionId, data)`. -/
def storeSet (sid : String) (d : CachedData) (s : Store) : Store :=
  match s with
  | [] => [(sid, d)]
  | (k, d2) :: rest => if k = sid then (sid, d) :: rest else (k, d2) :: storeSet sid d rest

/-- `SCHEMA_CACHE.delete(sessionId)`. -/
def storeDelete (sid : String) (s : Store) : Store :=
  s.filter (fun e => e.1 ≠ sid)

/-- `cleanExpiredSchemas()` (src/app.js:237-245): drop every entry whose
`expiresAt` lies strictly in the past. -/
def cleanExpiredSchemas (now : Nat) (s : Store) : Store :=
  s.filter (fun e => !(now > e.2.expiresAt))

/-- `storeSchemaInCache(sessionId, config, fieldLengthMap)` (src/app.js:248-261):
insert the entry with a fresh ten-minute expiry, then sweep expired entries. -/
def storeSchemaInCache (now : Nat) (sid : String) (config : SessionConfig)
    (fieldLengthMap : Option FLMap) (s : Store) : Store :=
  let expiresAt := now + SCHEMA_TTL
  cleanExpiredSchemas now (storeSet sid
    { config := config
      fieldLengthMap := fieldLengthMap
      hasFixedFieldLength := config.uniformFieldLength
      expiresAt := expiresAt
      createdAt := now } s)

/-- `getSchemaFromCache(sessionId)` (src/app.js:264-283): absent keys and
expired entries give `none` (expired entries are deleted on access); live
entries are returned with their expiry slid forward by the TTL. -/
def getSchemaFromCache (now : Nat) (sid : String) (s : Store) :
    Option CachedData × Store :=
  match storeLookup sid s with
  | none => (none, s)
  | some d =>
    if now > d.expiresAt then (none, storeDelete sid s)
    else
      let d2 := { d with expiresAt := now + SCHEMA_TTL }
      (some d2, storeSet sid d2 s)

theorem storeLookup_set_self (sid : String) (d : CachedData) (s : Store) :
    storeLookup sid (storeSet sid d s) = some d := by
  induction s with
  | nil => simp [storeSet, storeLookup]
  | cons e rest ih =>
    obtain ⟨k, d2⟩ := e
    by_cases h : k = sid
    · simp [storeSet, storeLookup, h]
    · simp [storeSet, storeLookup, h, ih]

theorem storeLookup_set_other {sid k : String} (h : k ≠ sid) (d : CachedData) (s : Store) :
    storeLookup sid (storeSet k d s) = storeLookup sid s := by
  induction s with
  | nil => simp [storeSet, storeLookup, h]
  | cons e rest ih =>
    obtain ⟨k3, d3⟩ := e
    by_cases h3 : k3 = k
    · subst h3
      simp [storeSet, storeLookup, h, ih]
    · by_cases h4 : k3 = sid
      · subst h4
        simp [storeSet, storeLookup, h3, Ne.symm h]
      · simp [storeSet, storeLookup, h3, h4, ih]

/-! ## Pagination controller (`handlePaginatedRequest`, src/app.js:372-603) -/

/-- The request body fields consumed by `handlePaginatedRequest`. `none` models
an absent (or JS `null`, for the numbers) property. -/
structure Request where
  sessionId : Option String
  pageNumber : Option Int
  numFields : Option Int
  numObjects : Option Int
  numNesting : Option Int
  totalRecords : Option Int
  nestedFields : Option Int
  uniformFieldLength : Option Bool
  recordsPerPage : Option Int
deriving Repr, DecidableEq

/-- Structured error payloads of the controller's error responses; the page
error carries the data interpolated into its message text. -/
inductive ErrMsg where
  | missingParams
  | fieldsOutOfRange
  | objectsOutOfRange
  | nestingOutOfRange
  | totalRecordsOutOfRange
  | nestedFieldsOutOfRange
  | recordsPerPageOutOfRange
  | newSessionMustStartAtPage1
  | invalidPageNumber
  | sessionNotFound
  | pageDoesNotExist (requested : Int) (totalPages : Nat)
deriving Repr, DecidableEq

/-- The pagination metadata object of a successful response (src/app.js:571-581). -/
structure Pagination where
  currentPage : Int
  totalPages : Nat
  totalRecords : Nat
  recordsPerPage : Nat
  recordsInCurrentPage : Nat
  hasNextPage : Bool
  hasPreviousPage : Bool
  nextPageNumber : Option Int
  prevPageNumber : Option Int
deriving Repr, DecidableEq

/-- A controller response: a success body or an error status with its payload. -/
inductive Response where
  | ok (sessionId : String) (data : List Json) (pagination : Pagination)
  | err (status : Nat) (msg : ErrMsg)

/-- JS `x || d` for an optional number: absent and `0` fall back to `d`. -/
def jsOrInt (x : Option Int) (d : Int) : Int :=
  match x with
  | none => d
  | some v => if v = 0 then d else v

/-- JS falsiness of an optional number (`!x`): absent or zero. -/
def jsFalsyInt (x : Option Int) : Bool :=
  match x with
  | none => true
  | some v => v = 0

/-- `Math.ceil(totalRecords / recordsPerPage)` for positive page size. -/
def jsCeilPages (totalRecords recordsPerPage : Nat) : Nat :=
  (totalRecords + recordsPerPage - 1) / recordsPerPage

/-- The record count of a page (src/app.js:541-543): `endIndex - startIndex`
with `startIndex = (p - 1) * recordsPerPage` and
`endIndex = min(startIndex + recordsPerPage, totalRecords)`. -/
def pageSlice (cfg : SessionConfig) (p : Int) : Nat :=
  min ((p - 1).toNat * cfg.recordsPerPage + cfg.recordsPerPage) cfg.totalRecords -
    (p - 1).toNat * cfg.recordsPerPage

/-- The pagination metadata object for page `p` (src/app.js:563-581). -/
def pageMeta (cfg : SessionConfig) (p : Int) : Pagination :=
  let totalPages := jsCeilPages cfg.totalRecords cfg.recordsPerPage
  { currentPage := p
    totalPages := totalPages
    totalRecords := cfg.totalRecords
    recordsPerPage := cfg.recordsPerPage
    recordsInCurrentPage := pageSlice cfg p
    hasNextPage := p < (totalPages : Int)
    hasPreviousPage := p > 1
    nextPageNumber := if p < (totalPages : Int) then some (p + 1) else none
    prevPageNumber := if p > 1 then some (p - 1) else none }

/-- The shared tail of `handlePaginatedRequest` (src/app.js:532-599): page-range
validation against the session's stored configuration, page-slice arithmetic,
global length-map installation, seeded generation, and pagination metadata. -/
def generatePage (O : Oracle) (sid : String) (pageNumber : Int) (cfg : SessionConfig)
    (flm : Option FLMap) (store : Store) (g : Option FLMap) (fak : FakerState) :
    Response × Store × Option FLMap × FakerState :=
  let totalPages := jsCeilPages cfg.totalRecords cfg.recordsPerPage
  if pageNumber > (totalPages : Int) then
    (.err 400 (.pageDoesNotExist pageNumber totalPages), store, g, fak)
  else
    let recordsToGenerate := pageSlice cfg pageNumber
    let g1 := match flm with
      | some m => some m
      | none => g
    let seed := generatePageSeed sid pageNumber
    let gen := generateRealisticData O g1 cfg.numFields cfg.numObjects
      cfg.numNesting recordsToGenerate cfg.nestedFields cfg.uniformFieldLength (some seed) fak
    (.ok sid gen.1 (pageMeta cfg pageNumber), store, gen.2.1, gen.2.2)

/-- `handlePaginatedRequest(req, res)` (src/app.js:372-603). The ambient state
is passed and returned explicitly: the wall clock `now`, the fresh session id
`freshSid` that `generateSessionId()` would mint, the `SCHEMA_CACHE` store, the
process-global `FIELD_LENGTH_MAP` as `g`, and the generator state `fak`. -/
def handlePaginatedRequest (O : Oracle) (now : Nat) (freshSid : String) (req : Request)
    (store : Store) (g : Option FLMap) (fak : FakerState) :
    Response × Store × Option FLMap × FakerState :=
  let isNewSession := req.sessionId = none || req.sessionId = some ""
  let currentPageNumber := jsOrInt req.pageNumber 1
  let finalNestedFields := (req.nestedFields).getD 3
  let finalUniformLength := (req.uniformFieldLength).getD false
  let finalRecordsPerPage := (req.recordsPerPage).getD 100
  if isNewSession then
    if jsFalsyInt req.numFields || req.numObjects = none || req.numNesting = none ||
        jsFalsyInt req.totalRecords then
      (.err 400 .missingParams, store, g, fak)
    else
      let numFields := (req.numFields).getD 0
      let numObjects := (req.numObjects).getD 0
      let numNesting := (req.numNesting).getD 0
      let totalRecords := (req.totalRecords).getD 0
      if numFields < 1 || numFields > 300 then
        (.err 400 .fieldsOutOfRange, store, g, fak)
      else if numObjects < 0 || numObjects > 10 then
        (.err 400 .objectsOutOfRange, store, g, fak)
      else if numNesting < 0 || numNesting > 5 then
        (.err 400 .nestingOutOfRange, store, g, fak)
      else if totalRecords < 10 || totalRecords > 100000000 then
        (.err 400 .totalRecordsOutOfRange, store, g, fak)
      else if finalNestedFields < 0 || finalNestedFields > 50 then
        (.err 400 .nestedFieldsOutOfRange, store, g, fak)
      else if finalRecordsPerPage < 10 || finalRecordsPerPage > 1000 then
        (.err 400 .recordsPerPageOutOfRange, store, g, fak)
      else if currentPageNumber ≠ 1 then
        (.err 400 .newSessionMustStartAtPage1, store, g, fak)
      else
        let sessionConfig : SessionConfig :=
          { numFields := numFields.toNat
            numObjects := numObjects.toNat
            numNesting := numNesting.toNat
            totalRecords := totalRecords.toNat
            nestedFields := finalNestedFields.toNat
            uniformFieldLength := finalUniformLength
            recordsPerPage := finalRecordsPerPage.toNat }
        let sampled :=
          if finalUniformLength then
            let m := generateFieldLengthMapFromSample O sessionConfig.numFields
              sessionConfig.numObjects sessionConfig.numNesting sessionConfig.nestedFields fak
            ((some m.1, m.2) : Option FLMap × FakerState)
          else (none, fak)
        let store1 := storeSchemaInCache now freshSid sessionConfig sampled.1 store
        generatePage O freshSid currentPageNumber sessionConfig sampled.1 store1 g sampled.2
  else
    let sid := (req.sessionId).getD ""
    if currentPageNumber < 1 then
      (.err 400 .invalidPageNumber, store, g, fak)
    else
      let looked := getSchemaFromCache now sid store
      match looked.1 with
      | none => (.err 404 .sessionNotFound, looked.2, g, fak)
      | some cachedData =>
        generatePage O sid currentPageNumber cachedData.config cachedData.fieldLengthMap
          looked.2 g fak

/-! ## Supporting lemmas: lookup, record counts, seeded determinism -/

theorem getSchemaFromCache_absent {now : Nat} {sid : String} {s : Store}
    (h : storeLookup sid s = none) : getSchemaFromCache now sid s = (none, s) := by
  simp only [getSchemaFromCache, h]

theorem getSchemaFromCache_expired {now : Nat} {sid : String} {s : Store} {d : CachedData}
    (hd : storeLookup sid s = some d) (hexp : d.expiresAt < now) :
    getSchemaFromCache now sid s = (none, storeDelete sid s) := by
  simp only [getSchemaFromCache, hd]
  rw [if_pos (show now > d.expiresAt from hexp)]

theorem getSchemaFromCache_live {now : Nat} {sid : String} {s : Store} {d : CachedData}
    (hd : storeLookup sid s = some d) (hle : now ≤ d.expiresAt) :
    getSchemaFromCache now sid s =
      (some { d with expiresAt := now + SCHEMA_TTL },
        storeSet sid { d with expiresAt := now + SCHEMA_TTL } s) := by
  simp only [getSchemaFromCache, hd]
  rw [if_neg (show ¬ now > d.expiresAt by omega)]

theorem genRecords_length (O : Oracle) (flm : Option FLMap) (uul : Bool)
    (nl nf no nfld : Nat) (seed : Option Nat) :
    ∀ (count i : Nat) (st : FakerState),
      (genRecords O flm uul nl nf no nfld seed count i st).1.length = count := by
  intro count
  induction count with
  | zero => intro i st; rfl
  | succ c ih =>
    intro i st
    simp only [genRecords, List.length_cons]
    rw [ih]

/-- With a seed present, the record list produced by the loop does not depend on
the incoming generator state: every record re-seeds the source. -/
theorem genRecords_seeded_ext (O : Oracle) (flm : Option FLMap) (uul : Bool)
    (nl nf no nfld sd : Nat) :
    ∀ (count i : Nat) (st st2 : FakerState),
      (genRecords O flm uul nl nf no nfld (some sd) count i st).1 =
      (genRecords O flm uul nl nf no nfld (some sd) count i st2).1 := by
  intro count i st st2
  cases count with
  | zero => rfl
  | succ c => rfl

/-- C9 part: `generateRealisticData` returns exactly `numRecords` records. -/
theorem generateRealisticData_length (O : Oracle) (g : Option FLMap)
    (nf no nl nr nfld : Nat) (uul : Bool) (seed : Option Nat) (st : FakerState) :
    (generateRealisticData O g nf no nl nr nfld uul seed st).1.length = nr := by
  simp only [generateRealisticData]
  rw [genRecords_length]

/-- In seeded runs with the uniform-mode global nonempty (or natural mode), the
record list is a function of the map, mode, dimensions and seed alone. -/
theorem generateRealisticData_seeded_records (O : Oracle) (g : Option FLMap)
    (nf no nl n nfld : Nat) (uul : Bool) (sd : Nat) (st : FakerState)
    (hg : uul = true → flmEmpty g = false) :
    (generateRealisticData O g nf no nl n nfld uul (some sd) st).1 =
    (genRecords O (if uul then g else none) uul nl nf no nfld (some sd) n 0 ⟨0, 0⟩).1 := by
  cases uul with
  | false =>
    simp only [generateRealisticData, if_neg (Bool.false_ne_true), if_false]
    exact genRecords_seeded_ext O none false nl nf no nfld sd n 0 _ _
  | true =>
    have hge := hg rfl
    simp only [generateRealisticData, if_true, hge, Bool.false_eq_true, if_false]
    exact genRecords_seeded_ext O g true nl nf no nfld sd n 0 _ _

/-! ## Canonical page output -/

/-- The canonical page data: a pure function of the session id, page number and
stored session state (configuration and length schema). -/
def pageRecords (O : Oracle) (cfg : SessionConfig) (flm : Option FLMap)
    (sid : String) (p : Int) : List Json :=
  (genRecords O (if cfg.uniformFieldLength then flm else none) cfg.uniformFieldLength
    cfg.numNesting cfg.numFields cfg.numObjects cfg.nestedFields
    (some (generatePageSeed sid p)) (pageSlice cfg p) 0 ⟨0, 0⟩).1

/-- A session entry is well formed when uniform-length mode implies a stored
nonempty length map (which holds for every entry the controller creates). -/
def WFCached (d : CachedData) : Prop :=
  d.config.uniformFieldLength = true → ∃ m, d.fieldLengthMap = some m ∧ m ≠ []

theorem generatePage_out_of_range (O : Oracle) (sid : String) (p : Int)
    (cfg : SessionConfig) (flm : Option FLMap) (store : Store) (g : Option FLMap)
    (fak : FakerState)
    (h : p > (jsCeilPages cfg.totalRecords cfg.recordsPerPage : Int)) :
    generatePage O sid p cfg flm store g fak =
      (.err 400 (.pageDoesNotExist p (jsCeilPages cfg.totalRecords cfg.recordsPerPage)),
        store, g, fak) := by
  simp only [generatePage]
  rw [if_pos h]

theorem generatePage_in_range_store (O : Oracle) (sid : String) (p : Int)
    (cfg : SessionConfig) (flm : Option FLMap) (store : Store) (g : Option FLMap)
    (fak : FakerState)
    (h : ¬ p > (jsCeilPages cfg.totalRecords cfg.recordsPerPage : Int)) :
    (generatePage O sid p cfg flm store g fak).2.1 = store := by
  simp only [generatePage]
  rw [if_neg h]

theorem generatePage_in_range_fst (O : Oracle) (sid : String) (p : Int)
    (cfg : SessionConfig) (flm : Option FLMap) (store : Store) (g : Option FLMap)
    (fak : FakerState)
    (hWF : cfg.uniformFieldLength = true → ∃ m, flm = some m ∧ m ≠ [])
    (h : ¬ p > (jsCeilPages cfg.totalRecords cfg.recordsPerPage : Int)) :
    (generatePage O sid p cfg flm store g fak).1 =
      .ok sid (pageRecords O cfg flm sid p) (pageMeta cfg p) := by
  simp only [generatePage, pageRecords]
  rw [if_neg h]
  dsimp only
  cases flm with
  | none =>
    dsimp only
    cases huul : cfg.uniformFieldLength with
    | true =>
      obtain ⟨m, hm, _⟩ := hWF huul
      exact absurd hm (by simp)
    | false =>
      rw [generateRealisticData_seeded_records O g cfg.numFields cfg.numObjects
        cfg.numNesting (pageSlice cfg p) cfg.nestedFields false (generatePageSeed sid p) fak
        (fun hh => absurd hh Bool.false_ne_true)]
      rfl
  | some m =>
    dsimp only
    cases huul : cfg.uniformFieldLength with
    | true =>
      obtain ⟨m2, hm2, hmne⟩ := hWF huul
      have hme : m ≠ [] := by
        injection hm2 with he
        rw [he]
        exact hmne
      have hempty : flmEmpty (some m) = false := by
        cases m with
        | nil => exact absurd rfl hme
        | cons a t => rfl
      rw [generateRealisticData_seeded_records O (some m) cfg.numFields cfg.numObjects
        cfg.numNesting (pageSlice cfg p) cfg.nestedFields true (generatePageSeed sid p) fak
        (fun _ => hempty)]
    | false =>
      rw [generateRealisticData_seeded_records O (some m) cfg.numFields cfg.numObjects
        cfg.numNesting (pageSlice cfg p) cfg.nestedFields false (generatePageSeed sid p) fak
        (fun hh => absurd hh Bool.false_ne_true)]

/-- The request shape of a continuation request: only the session id and page
number are supplied. -/
def continueReq (sid : String) (p : Int) : Request :=
  { sessionId := some sid, pageNumber := some p, numFields := none, numObjects := none
    numNesting := none, totalRecords := none, nestedFields := none
    uniformFieldLength := none, recordsPerPage := none }

/-- A continuation request on a live session reduces to `generatePage` on the
stored configuration, with the TTL slid by the lookup. -/
theorem handle_continue (O : Oracle) (now : Nat) (fresh : String) (store : Store)
    (g : Option FLMap) (fak : FakerState) (sid : String) (p : Int) (d : CachedData)
    (hsid : sid ≠ "") (hp1 : 1 ≤ p)
    (hlook : storeLookup sid store = some d) (hlive : now ≤ d.expiresAt) :
    handlePaginatedRequest O now fresh (continueReq sid p) store g fak =
      generatePage O sid p d.config d.fieldLengthMap
        (storeSet sid { d with expiresAt := now + SCHEMA_TTL } store) g fak := by
  have hp0 : p ≠ 0 := by omega
  have hj : jsOrInt (some p) 1 = p := by simp [jsOrInt, hp0]
  simp only [handlePaginatedRequest, continueReq, Option.getD_some, hj]
  rw [if_neg (show ¬ ((decide (some sid = none) || decide (some sid = some "")) = true) by
    simp [hsid])]
  rw [if_neg (show ¬ p < 1 by omega)]
  rw [getSchemaFromCache_live hlook hlive]

/-! ## Page-count and slice arithmetic -/

theorem jsCeilPages_mul_ge (R P : Nat) (hP : 0 < P) : R ≤ jsCeilPages R P * P := by
  unfold jsCeilPages
  have h := Nat.lt_div_mul_add hP (a := R + P - 1)
  omega

theorem pageSlice_min (cfg : SessionConfig) (p : Nat) (hP : 0 < cfg.recordsPerPage)
    (hp1 : 1 ≤ p) (hple : p ≤ jsCeilPages cfg.totalRecords cfg.recordsPerPage) :
    pageSlice cfg (p : Int) =
      min cfg.recordsPerPage (cfg.totalRecords - (p - 1) * cfg.recordsPerPage) := by
  have htn : (((p : Nat) : Int) - 1).toNat = p - 1 := by omega
  unfold pageSlice
  rw [htn]
  have hAB : (p - 1) * cfg.recordsPerPage + cfg.recordsPerPage = p * cfg.recordsPerPage := by
    cases p with
    | zero => omega
    | succ q => simp [Nat.succ_sub_one, Nat.succ_mul]
  have hmul : p * cfg.recordsPerPage ≤ cfg.totalRecords + cfg.recordsPerPage - 1 :=
    (Nat.le_div_iff_mul_le hP).mp hple
  omega

theorem pageRecords_length (O : Oracle) (cfg : SessionConfig) (flm : Option FLMap)
    (sid : String) (p : Int) :
    (pageRecords O cfg flm sid p).length = pageSlice cfg p := by
  unfold pageRecords
  rw [genRecords_length]

/-! ## The successful-response length invariant -/

theorem generatePage_ok_length (O : Oracle) (sid : String) (p : Int) (cfg : SessionConfig)
    (flm : Option FLMap) (store : Store) (g : Option FLMap) (fak : FakerState)
    (sid2 : String) (data : List Json) (pag : Pagination)
    (rest : Store × Option FLMap × FakerState)
    (h : generatePage O sid p cfg flm store g fak = (.ok sid2 data pag, rest)) :
    data.length = pag.recordsInCurrentPage := by
  simp only [generatePage] at h
  by_cases hc : p > (jsCeilPages cfg.totalRecords cfg.recordsPerPage : Int)
  · rw [if_pos hc] at h
    exact absurd h (by simp)
  · rw [if_neg hc] at h
    have h1 := congrArg Prod.fst h
    dsimp only at h1
    injection h1 with hsid hdata hpag
    rw [← hdata, ← hpag]
    rw [generateRealisticData_length]
    rfl

set_option maxHeartbeats 2000000 in
theorem handler_ok_length (O : Oracle) (now : Nat) (fresh : String) (req : Request)
    (store : Store) (g : Option FLMap) (fak : FakerState) (sid : String)
    (data : List Json) (pag : Pagination) (rest : Store × Option FLMap × FakerState)
    (h : handlePaginatedRequest O now fresh req store g fak = (.ok sid data pag, rest)) :
    data.length = pag.recordsInCurrentPage := by
  simp only [handlePaginatedRequest] at h
  repeat' split at h
  all_goals first
    | exact generatePage_ok_length _ _ _ _ _ _ _ _ _ _ _ _ h
    | exact absurd h (by simp)

/-! ## Claim C9: record-count consistency -/

/-- C9: `generateRealisticData` returns exactly `numRecords` records, and every
successful pagination response carries exactly `pagination.recordsInCurrentPage`
records in its data array. -/
theorem response_record_count :
    (∀ (O : Oracle) (g : Option FLMap) (nf no nl nr nfld : Nat) (uul : Bool)
        (seed : Option Nat) (st : FakerState),
      (generateRealisticData O g nf no nl nr nfld uul seed st).1.length = nr) ∧
    (∀ (O : Oracle) (now : Nat) (fresh : String) (req : Request) (store : Store)
        (g : Option FLMap) (fak : FakerState) (sid : String) (data : List Json)
        (pag : Pagination) (rest : Store × Option FLMap × FakerState),
      handlePaginatedRequest O now fresh req store g fak = (.ok sid data pag, rest) →
      data.length = pag.recordsInCurrentPage) :=
  ⟨fun O g nf no nl nr nfld uul seed st => generateRealisticData_length O g nf no nl nr nfld uul seed st,
   fun O now fresh req store g fak sid data pag rest h =>
     handler_ok_length O now fresh req store g fak sid data pag rest h⟩

/-! ## Claim C4: pagination arithmetic -/

/-- C4: on a live session with `totalRecords = R` and `recordsPerPage = P`, the
controller computes `totalPages = ceil(R / P)`; every in-range page `p` returns
`min(P, R - (p - 1) * P)` records (exactly `P` for `p < totalPages`, the
remainder `R - (totalPages - 1) * P` on the final page), and a page beyond
`totalPages` is rejected with the page-out-of-range error carrying the
total-page count. -/
theorem pagination_arithmetic (O : Oracle) (now : Nat) (fresh sid : String)
    (store : Store) (g : Option FLMap) (fak : FakerState) (d : CachedData)
    (hsid : sid ≠ "") (hlook : storeLookup sid store = some d)
    (hlive : now ≤ d.expiresAt) (hWF : WFCached d)
    (hP : 0 < d.config.recordsPerPage) :
    ∀ p : Nat, 1 ≤ p →
      ((p ≤ jsCeilPages d.config.totalRecords d.config.recordsPerPage →
        ∃ data,
          (handlePaginatedRequest O now fresh (continueReq sid (p : Int)) store g fak).1 =
            .ok sid data (pageMeta d.config (p : Int)) ∧
          (pageMeta d.config (p : Int)).totalPages =
            jsCeilPages d.config.totalRecords d.config.recordsPerPage ∧
          data.length = min d.config.recordsPerPage
            (d.config.totalRecords - (p - 1) * d.config.recordsPerPage) ∧
          (p < jsCeilPages d.config.totalRecords d.config.recordsPerPage →
            data.length = d.config.recordsPerPage) ∧
          (p = jsCeilPages d.config.totalRecords d.config.recordsPerPage →
            data.length = d.config.totalRecords -
              (jsCeilPages d.config.totalRecords d.config.recordsPerPage - 1) *
                d.config.recordsPerPage)) ∧
       (jsCeilPages d.config.totalRecords d.config.recordsPerPage < p →
        (handlePaginatedRequest O now fresh (continueReq sid (p : Int)) store g fak).1 =
          .err 400 (.pageDoesNotExist (p : Int)
            (jsCeilPages d.config.totalRecords d.config.recordsPerPage)))) := by
  intro p hp1
  have hpi : (1 : Int) ≤ (p : Int) := by exact_mod_cast hp1
  have hcont := handle_continue O now fresh store g fak sid (p : Int) d hsid hpi hlook hlive
  constructor
  · intro hple
    have hnot : ¬ ((p : Int) > (jsCeilPages d.config.totalRecords d.config.recordsPerPage : Int)) := by
      omega
    have hfst := generatePage_in_range_fst O sid (p : Int) d.config d.fieldLengthMap
      (storeSet sid { d with expiresAt := now + SCHEMA_TTL } store) g fak hWF hnot
    have hlen : (pageRecords O d.config d.fieldLengthMap sid (p : Int)).length =
        min d.config.recordsPerPage
          (d.config.totalRecords - (p - 1) * d.config.recordsPerPage) := by
      rw [pageRecords_length, pageSlice_min d.config p hP hp1 hple]
    refine ⟨pageRecords O d.config d.fieldLengthMap sid (p : Int), ?_, rfl, hlen, ?_, ?_⟩
    · rw [hcont]
      exact hfst
    · intro hlt
      rw [hlen]
      have hsucc : p + 1 ≤ jsCeilPages d.config.totalRecords d.config.recordsPerPage := hlt
      have hmul : (p + 1) * d.config.recordsPerPage ≤
          d.config.totalRecords + d.config.recordsPerPage - 1 :=
        (Nat.le_div_iff_mul_le hP).mp hsucc
      have hAB : p * d.config.recordsPerPage + d.config.recordsPerPage =
          (p + 1) * d.config.recordsPerPage := by
        simp [Nat.succ_mul]
      have hAC : (p - 1) * d.config.recordsPerPage + d.config.recordsPerPage =
          p * d.config.recordsPerPage := by
        cases p with
        | zero => omega
        | succ q => simp [Nat.succ_sub_one, Nat.succ_mul]
      omega
    · intro heq
      rw [hlen, ← heq]
      have hge := jsCeilPages_mul_ge d.config.totalRecords d.config.recordsPerPage hP
      rw [← heq] at hge
      have hAC : (p - 1) * d.config.recordsPerPage + d.config.recordsPerPage =
          p * d.config.recordsPerPage := by
        cases p with
        | zero => omega
        | succ q => simp [Nat.succ_sub_one, Nat.succ_mul]
      omega
  · intro hgt
    have hgt2 : (p : Int) > (jsCeilPages d.config.totalRecords d.config.recordsPerPage : Int) := by
      exact_mod_cast hgt
    rw [hcont, generatePage_out_of_range O sid (p : Int) d.config d.fieldLengthMap
      (storeSet sid { d with expiresAt := now + SCHEMA_TTL } store) g fak hgt2]

/-! ## Concrete instances used by witnesses -/

/-- A trivial concrete oracle for witness evaluation. -/
def trivOracle : Oracle :=
  { val := fun _ _ _ => .str ['a'], pad := fun _ _ => 0 }

/-- A concrete natural-length session configuration. -/
def cfgA : SessionConfig :=
  { numFields := 1, numObjects := 0, numNesting := 0, totalRecords := 10
    nestedFields := 3, uniformFieldLength := false, recordsPerPage := 100 }

/-- A concrete live cached session. -/
def dataA : CachedData :=
  { config := cfgA, fieldLengthMap := none, hasFixedFieldLength := false
    expiresAt := 1000000, createdAt := 0 }

/-- A concrete store holding `dataA`. -/
def storeA : Store := [("session_1_abc", dataA)]

/-! ## Claim C5: seed derivation -/

/-- C5: `generatePageSeed` is a pure function of `(sessionId, pageNumber)`
computed exactly as the specification describes it: the substring of the
session id after its last underscore is concatenated with the decimal string
of the page number, the result is folded left to right with
`acc := 32-bit-wrap (acc * 31 + charCode)` from 0, and the absolute value of
the final accumulator is returned. -/
theorem generatePageSeed_matches_spec (sessionId : String) (pageNumber : Int) :
    generatePageSeed sessionId pageNumber = deriveSeedSpec sessionId pageNumber := by
  unfold generatePageSeed deriveSeedSpec
  rw [getLastD_jsSplitU, hashStep_eq_specHashStep]

/-! ## Claim C6: session-store lookup -/

/-- C6: a store lookup returns `NotFound` when the key is absent; deletes the
entry and returns `NotFound` when the entry is expired (`now > expiresAt`);
and otherwise returns the session with `expiresAt` slid to `now + TTL`
(TTL = 10 minutes), leaving config and length schema unmodified. -/
theorem getSchemaFromCache_spec (now : Nat) (sid : String) (s : Store) :
    SCHEMA_TTL = 10 * 60 * 1000 ∧
    (storeLookup sid s = none → getSchemaFromCache now sid s = (none, s)) ∧
    (∀ d, storeLookup sid s = some d → d.expiresAt < now →
      getSchemaFromCache now sid s = (none, storeDelete sid s)) ∧
    (∀ d, storeLookup sid s = some d → now ≤ d.expiresAt →
      getSchemaFromCache now sid s =
        (some { d with expiresAt := now + SCHEMA_TTL },
          storeSet sid { d with expiresAt := now + SCHEMA_TTL } s) ∧
      ({ d with expiresAt := now + SCHEMA_TTL } : CachedData).config = d.config ∧
      ({ d with expiresAt := now + SCHEMA_TTL } : CachedData).fieldLengthMap =
        d.fieldLengthMap) := by
  refine ⟨rfl, ?_, ?_, ?_⟩
  · intro h
    simp only [getSchemaFromCache, h]
  · intro d hd hexp
    simp only [getSchemaFromCache, hd]
    rw [if_pos (show now > d.expiresAt from hexp)]
  · intro d hd hle
    refine ⟨?_, rfl, rfl⟩
    simp only [getSchemaFromCache, hd]
    rw [if_neg (show ¬ now > d.expiresAt by omega)]

/-- Witness for C6: the live-entry case on a concrete store. -/
theorem getSchemaFromCache_spec_witness :
    storeLookup "session_1_abc" storeA = some dataA ∧ 500 ≤ dataA.expiresAt ∧
    getSchemaFromCache 500 "session_1_abc" storeA =
      (some { dataA with expiresAt := 500 + SCHEMA_TTL },
        storeSet "session_1_abc" { dataA with expiresAt := 500 + SCHEMA_TTL } storeA) :=
  ⟨rfl, by decide,
    ((getSchemaFromCache_spec 500 "session_1_abc" storeA).2.2.2 dataA rfl (by decide)).1⟩

/-! ## Claims C3 and C7: error handling around page validation -/

/-- A 250-record, 100-per-page natural-length session configuration. -/
def cfg250 : SessionConfig :=
  { numFields := 1, numObjects := 0, numNesting := 0, totalRecords := 250
    nestedFields := 3, uniformFieldLength := false, recordsPerPage := 100 }

/-- A live cached session with `cfg250`. -/
def data250 : CachedData :=
  { config := cfg250, fieldLengthMap := none, hasFixedFieldLength := false
    expiresAt := 1000000, createdAt := 0 }

/-- A concrete store holding `data250`. -/
def store250 : Store := [("session_1_abc", data250)]

/-- A new-session request (no session id) with the given page number and a
minimal valid configuration. -/
def newReq (p : Option Int) : Request :=
  { sessionId := none, pageNumber := p, numFields := some 1, numObjects := some 0
    numNesting := some 0, totalRecords := some 10, nestedFields := none
    uniformFieldLength := none, recordsPerPage := none }

/-- Whether a response is a success. -/
def isOk : Response → Bool
  | .ok _ _ _ => true
  | .err _ _ => false

/-- Counterexample to C3: an out-of-range page request on a live session does
mutate session state — the lookup that precedes the page validation slides
`expiresAt` to `now + TTL`, which differs from the stored expiry. -/
theorem page_out_of_range_mutates_ttl :
    (handlePaginatedRequest trivOracle 500 "f" (continueReq "session_1_abc" 2) storeA none
      ⟨0, 0⟩).1 = .err 400 (.pageDoesNotExist 2 1) ∧
    storeLookup "session_1_abc"
      (handlePaginatedRequest trivOracle 500 "f" (continueReq "session_1_abc" 2) storeA none
        ⟨0, 0⟩).2.1 = some { dataA with expiresAt := 500 + SCHEMA_TTL } ∧
    (500 + SCHEMA_TTL : Nat) ≠ dataA.expiresAt :=
  ⟨rfl, rfl, by decide⟩

/-- C3 (amended): an out-of-range page request on a live session returns a
client error carrying the valid total-page count, and leaves the stored config
and length schema unchanged; but the `expiresAt` of the session is slid to
`now + TTL` by the lookup that precedes the validation, and the global map and
generator state are untouched. -/
theorem page_out_of_range_behavior (O : Oracle) (now : Nat) (fresh sid : String)
    (store : Store) (g : Option FLMap) (fak : FakerState) (d : CachedData) (p : Int)
    (hsid : sid ≠ "") (hp1 : 1 ≤ p) (hlook : storeLookup sid store = some d)
    (hlive : now ≤ d.expiresAt)
    (hgt : p > (jsCeilPages d.config.totalRecords d.config.recordsPerPage : Int)) :
    handlePaginatedRequest O now fresh (continueReq sid p) store g fak =
      (.err 400 (.pageDoesNotExist p
          (jsCeilPages d.config.totalRecords d.config.recordsPerPage)),
        storeSet sid { d with expiresAt := now + SCHEMA_TTL } store, g, fak) ∧
    storeLookup sid (storeSet sid { d with expiresAt := now + SCHEMA_TTL } store) =
      some { d with expiresAt := now + SCHEMA_TTL } := by
  rw [handle_continue O now fresh store g fak sid p d hsid hp1 hlook hlive]
  exact ⟨generatePage_out_of_range O sid p d.config d.fieldLengthMap _ g fak hgt,
    storeLookup_set_self sid _ store⟩

/-- Witness for the amended C3 on a concrete live session. -/
theorem page_out_of_range_behavior_witness :
    ("session_1_abc" : String) ≠ "" ∧ (1 : Int) ≤ 2 ∧
    storeLookup "session_1_abc" storeA = some dataA ∧ 500 ≤ dataA.expiresAt ∧
    handlePaginatedRequest trivOracle 500 "f" (continueReq "session_1_abc" 2) storeA none
      ⟨0, 0⟩ =
      (.err 400 (.pageDoesNotExist 2
          (jsCeilPages dataA.config.totalRecords dataA.config.recordsPerPage)),
        storeSet "session_1_abc" { dataA with expiresAt := 500 + SCHEMA_TTL } storeA,
        none, ⟨0, 0⟩) :=
  ⟨by decide, by decide, rfl, by decide,
    (page_out_of_range_behavior trivOracle 500 "f" "session_1_abc" storeA none ⟨0, 0⟩
      dataA 2 (by decide) (by decide) rfl (by decide) (by decide)).1⟩

/-- Counterexample to C7: a new-session request carrying `pageNumber: 0` — a
value other than 1 — is not rejected: `pageNumber || 1` coerces the falsy 0 to
page 1, the request succeeds, and a session is created in the store. -/
theorem new_session_page_zero_not_rejected :
    isOk (handlePaginatedRequest trivOracle 0 "session_9_x" (newReq (some 0)) [] none
      ⟨0, 0⟩).1 = true ∧
    (handlePaginatedRequest trivOracle 0 "session_9_x" (newReq (some 0)) [] none
      ⟨0, 0⟩).2.1.length = 1 :=
  ⟨rfl, rfl⟩

/-- C7 (amended): a new-session request whose supplied page number is neither 1
nor the falsy 0 (absent and 0 default to page 1) is rejected with a 400 client
error before any session is created: the store, the global length map, and the
generator state are all returned unchanged, so no session is stored and no
length schema is sampled. -/
theorem new_session_page_guard (O : Oracle) (now : Nat) (fresh : String) (req : Request)
    (store : Store) (g : Option FLMap) (fak : FakerState) (n : Int)
    (hnew : req.sessionId = none ∨ req.sessionId = some "")
    (hpage : req.pageNumber = some n) (hn0 : n ≠ 0) (hn1 : n ≠ 1) :
    ∃ e, handlePaginatedRequest O now fresh req store g fak = (.err 400 e, store, g, fak) := by
  have hnew2 : (decide (req.sessionId = none) || decide (req.sessionId = some "")) = true := by
    rcases hnew with h | h <;> simp [h]
  have hj : jsOrInt req.pageNumber 1 = n := by simp [jsOrInt, hpage, hn0]
  simp only [handlePaginatedRequest, hnew2, if_true, hj]
  repeat' split
  all_goals first
    | exact ⟨_, rfl⟩
    | (rename_i hne1; exact absurd (not_not.mp hne1) hn1)

/-- Witness for the amended C7: `pageNumber: 2` on a new session is rejected
with no state change. -/
theorem new_session_page_guard_witness :
    (newReq (some 2)).sessionId = none ∧ (newReq (some 2)).pageNumber = some 2 ∧
    ∃ e, handlePaginatedRequest trivOracle 0 "session_9_x" (newReq (some 2)) [] none
      ⟨0, 0⟩ = (.err 400 e, [], none, ⟨0, 0⟩) :=
  ⟨rfl, rfl,
    new_session_page_guard trivOracle 0 "session_9_x" (newReq (some 2)) [] none ⟨0, 0⟩ 2
      (Or.inl rfl) rfl (by decide) (by decide)⟩

/-- Witness for C9 on a concrete successful pagination response. -/
theorem response_record_count_witness :
    handlePaginatedRequest trivOracle 500 "f" (continueReq "session_1_abc" 1) storeA none
        ⟨0, 0⟩ =
      (.ok "session_1_abc" (pageRecords trivOracle cfgA none "session_1_abc" 1)
        (pageMeta cfgA 1),
        (handlePaginatedRequest trivOracle 500 "f" (continueReq "session_1_abc" 1) storeA
          none ⟨0, 0⟩).2) ∧
    (pageRecords trivOracle cfgA none "session_1_abc" 1).length =
      (pageMeta cfgA 1).recordsInCurrentPage := by
  have h : handlePaginatedRequest trivOracle 500 "f" (continueReq "session_1_abc" 1) storeA
      none ⟨0, 0⟩ =
      (.ok "session_1_abc" (pageRecords trivOracle cfgA none "session_1_abc" 1)
        (pageMeta cfgA 1),
        (handlePaginatedRequest trivOracle 500 "f" (continueReq "session_1_abc" 1) storeA
          none ⟨0, 0⟩).2) := rfl
  exact ⟨h, response_record_count.2 trivOracle 500 "f" (continueReq "session_1_abc" 1)
    storeA none ⟨0, 0⟩ "session_1_abc" _ _ _ h⟩

/-- Witness for C4: the boundary scenario `totalRecords = 250`,
`recordsPerPage = 100` — three pages, the last with 50 records, page 4 out of
range. -/
theorem pagination_arithmetic_witness :
    jsCeilPages 250 100 = 3 ∧
    (∃ data,
      (handlePaginatedRequest trivOracle 500 "f" (continueReq "session_1_abc" 3) store250
        none ⟨0, 0⟩).1 = .ok "session_1_abc" data (pageMeta cfg250 3) ∧
      data.length = 50) ∧
    (handlePaginatedRequest trivOracle 500 "f" (continueReq "session_1_abc" 4) store250
      none ⟨0, 0⟩).1 = .err 400 (.pageDoesNotExist 4 3) := by
  have H := pagination_arithmetic trivOracle 500 "f" "session_1_abc" store250 none ⟨0, 0⟩
    data250 (by decide) rfl (by decide) (fun h => absurd h (by decide)) (by decide)
  refine ⟨rfl, ?_, ?_⟩
  · obtain ⟨data, hok, _, hlen, _, _⟩ := (H 3 (by decide)).1 (by decide)
    exact ⟨data, hok, hlen.trans (by decide)⟩
  · exact (H 4 (by decide)).2 (by decide)

/-! ## Non-string classification through sampling and normalization -/

/-- Every non-string-classified key of a length map carries the `null`
never-normalize sentinel. -/
def NullOnNonString (m : FLMap) : Prop :=
  ∀ e ∈ m, isStringFieldType e.1 = false → e.2 = none

theorem flmLookup_mem {k : String} {v : LengthEntry} :
    ∀ {m : FLMap}, flmLookup k m = some v → (k, v) ∈ m := by
  intro m
  induction m with
  | nil => intro h; exact absurd h (by simp [flmLookup])
  | cons e rest ih =>
    obtain ⟨k2, v2⟩ := e
    intro h
    simp only [flmLookup] at h
    by_cases hk : k2 = k
    · rw [if_pos hk] at h
      injection h with hv
      rw [← hv, hk]
      exact List.mem_cons_self _ _
    · rw [if_neg hk] at h
      exact List.mem_cons_of_mem _ (ih h)

theorem flmSet_mem {k2 : String} {v2 : LengthEntry} (k : String) (v : LengthEntry) :
    ∀ {m : FLMap}, (k2, v2) ∈ flmSet k v m → (k2 = k ∧ v2 = v) ∨ (k2, v2) ∈ m := by
  intro m
  induction m with
  | nil =>
    intro h
    simp only [flmSet, List.mem_singleton] at h
    injection h with h1 h2
    exact Or.inl ⟨h1, h2⟩
  | cons e rest ih =>
    obtain ⟨k3, v3⟩ := e
    intro h
    simp only [flmSet] at h
    by_cases hk : k3 = k
    · rw [if_pos hk] at h
      rcases List.mem_cons.mp h with h2 | h2
      · injection h2 with h3 h4
        exact Or.inl ⟨h3, h4⟩
      · exact Or.inr (List.mem_cons_of_mem _ h2)
    · rw [if_neg hk] at h
      rcases List.mem_cons.mp h with h2 | h2
      · exact Or.inr (h2 ▸ List.mem_cons_self _ _)
      · rcases ih h2 with h3 | h3
        · exact Or.inl h3
        · exact Or.inr (List.mem_cons_of_mem _ h3)

theorem flmSet_preserves_null {m : FLMap} (h : NullOnNonString m) (k : String)
    (v : LengthEntry) (hv : v = none ∨ isStringFieldType k = true) :
    NullOnNonString (flmSet k v m) := by
  intro e he hns
  rcases flmSet_mem k v he with ⟨h1, h2⟩ | h2
  · rcases hv with hv | hv
    · rw [h2, hv]
    · rw [h1] at hns
      rw [hns] at hv
      exact absurd hv (by simp)
  · exact h e h2 hns

theorem extractStep_preserves_null (nm : String) (v : Value) {m : FLMap}
    (h : NullOnNonString m) : NullOnNonString (extractStep nm v m) := by
  simp only [extractStep]
  split
  · exact flmSet_preserves_null h _ _ (Or.inl rfl)
  · split
    · exact flmSet_preserves_null h _ _ (Or.inl rfl)
    · rename_i hns
      exact flmSet_preserves_null h _ _ (Or.inr (eq_true_of_ne_false hns))

theorem extractLengthsL_preserves_null :
    ∀ (k : Nat) (fields : List (String × Json)) (m : FLMap), sizeOf fields ≤ k →
      NullOnNonString m → NullOnNonString (extractLengthsL fields m) := by
  intro k
  induction k with
  | zero =>
    intro fields m hk
    cases fields with
    | nil => simp at hk
    | cons e rest => simp at hk
  | succ k ih =>
    intro fields m hk hm
    match fields with
    | [] =>
      rw [extractLengthsL]
      exact hm
    | (nm, .val v) :: rest =>
      rw [extractLengthsL]
      have hsz : sizeOf rest ≤ k := by
        simp at hk
        omega
      exact ih rest _ hsz (extractStep_preserves_null nm v hm)
    | (nm, .obj fs) :: rest =>
      rw [extractLengthsL]
      have hsz1 : sizeOf fs ≤ k := by
        simp at hk
        omega
      have hsz2 : sizeOf rest ≤ k := by
        simp at hk
        omega
      exact ih rest _ hsz2 (ih fs m hsz1 hm)

theorem sample_map_null_on_nonstring (O : Oracle) (nf no nl nfld : Nat) (st : FakerState) :
    NullOnNonString (generateFieldLengthMapFromSample O nf no nl nfld st).1 := by
  unfold generateFieldLengthMapFromSample
  exact extractLengthsL_preserves_null _ _ [] le_rfl (by intro e he; simp at he)

theorem enforceUniformLength_nonstring (O : Oracle) (flm : Option FLMap) (v : Value)
    (t : String) (uul : Bool) (st : FakerState) (h : isStringFieldType t = false) :
    enforceUniformLength O flm v t uul st = (v, st) := by
  unfold enforceUniformLength
  cases flm with
  | none => rfl
  | some m =>
    cases uul with
    | false => rfl
    | true =>
      cases hc : flmLookup t m with
      | none => simp [hc]
      | some entry =>
        cases entry with
        | none => simp [hc]
        | some L => simp [hc, h]

theorem validateAndClean_native (O : Oracle) (flm : Option FLMap) (name t : String)
    (uul : Bool) (st : FakerState) (v : Value) (h : isStringFieldType t = false)
    (hv : (∃ n, v = .num n) ∨ ∃ b, v = .bool b) :
    validateAndCleanFieldValue O flm name v t uul st = (v, st) := by
  have hce : containsEmoji v = false := by
    rcases hv with ⟨n, rfl⟩ | ⟨b, rfl⟩ <;> rfl
  have hcv : cleanEmoji name v = v := by
    unfold cleanEmoji
    rw [hce]
    simp
  unfold validateAndCleanFieldValue
  rw [hcv]
  cases flm with
  | none => rfl
  | some m =>
    cases uul with
    | false => rfl
    | true =>
      cases hc : flmLookup t m with
      | none => simp [hc]
      | some entry =>
        cases entry with
        | none => simp [hc]
        | some L =>
          simp only [hc]
          exact enforceUniformLength_nonstring O (some m) v t true st h

/-! ## Claim C8: non-string passthrough -/

/-- C8: the static non-string table lists exactly the nine tags of the claim;
sampling maps every non-string-classified tag it records to the `null`
never-normalize sentinel; normalization returns values of non-string-classified
tags unchanged; and cleaning leaves number and boolean values of such tags
untouched, so they keep their native JSON type. -/
theorem nonstring_passthrough :
    nonStringFieldTypes = ["age", "latitude", "longitude", "salary", "price", "number",
      "rating", "port", "boolean"] ∧
    (∀ t ∈ nonStringFieldTypes, isStringFieldType t = false) ∧
    (∀ (O : Oracle) (nf no nl nfld : Nat) (st : FakerState) (t : String) (v : LengthEntry),
      isStringFieldType t = false →
      flmLookup t (generateFieldLengthMapFromSample O nf no nl nfld st).1 = some v →
      v = none) ∧
    (∀ (O : Oracle) (flm : Option FLMap) (v : Value) (t : String) (uul : Bool)
        (st : FakerState), isStringFieldType t = false →
      enforceUniformLength O flm v t uul st = (v, st)) ∧
    (∀ (O : Oracle) (flm : Option FLMap) (name t : String) (uul : Bool) (st : FakerState),
      isStringFieldType t = false →
      (∀ n : Int, validateAndCleanFieldValue O flm name (.num n) t uul st = (.num n, st)) ∧
      (∀ b : Bool, validateAndCleanFieldValue O flm name (.bool b) t uul st = (.bool b, st))) := by
  refine ⟨rfl, by decide, ?_, ?_, ?_⟩
  · intro O nf no nl nfld st t v ht hl
    exact sample_map_null_on_nonstring O nf no nl nfld st _ (flmLookup_mem hl) ht
  · intro O flm v t uul st h
    exact enforceUniformLength_nonstring O flm v t uul st h
  · intro O flm name t uul st h
    exact ⟨fun n => validateAndClean_native O flm name t uul st (.num n) h (Or.inl ⟨n, rfl⟩),
      fun b => validateAndClean_native O flm name t uul st (.bool b) h (Or.inr ⟨b, rfl⟩)⟩

/-- Witness for C8 at the `age` tag with a numeric value. -/
theorem nonstring_passthrough_witness :
    isStringFieldType "age" = false ∧
    enforceUniformLength trivOracle (some [("age", some 5)]) (.num 30) "age" true ⟨0, 0⟩ =
      (.num 30, ⟨0, 0⟩) ∧
    validateAndCleanFieldValue trivOracle (some [("age", some 5)]) "age_8" (.num 30) "age"
      true ⟨0, 0⟩ = (.num 30, ⟨0, 0⟩) :=
  ⟨by decide,
    nonstring_passthrough.2.2.2.1 trivOracle (some [("age", some 5)]) (.num 30) "age" true
      ⟨0, 0⟩ (by decide),
    (nonstring_passthrough.2.2.2.2 trivOracle (some [("age", some 5)]) "age_8" "age" true
      ⟨0, 0⟩ (by decide)).1 30⟩

/-! ## Per-field properties of generated records -/

/-- Every scalar field (at any nesting depth) of a record satisfies `P` on its
name and value. -/
inductive FieldsProp (P : String → Value → Prop) : Json → Prop where
  | val (v : Value) : FieldsProp P (.val v)
  | obj (fs : List (String × Json))
      (hval : ∀ nm v, (nm, Json.val v) ∈ fs → P nm v)
      (hrec : ∀ nm j, (nm, j) ∈ fs → FieldsProp P j) :
      FieldsProp P (.obj fs)

theorem genFields_prop (O : Oracle) (flm : Option FLMap) (uul : Bool)
    (P : String → Value → Prop)
    (hstep : ∀ (i : Nat) (rawv : Value) (st : FakerState),
      P (fieldNameAt i)
        ((validateAndCleanFieldValue O flm (fieldNameAt i) rawv (fieldTypeAt i) uul st).1)) :
    ∀ (count i : Nat) (st : FakerState) (nm : String) (j : Json),
      (nm, j) ∈ (genFields O flm uul count i st).1 →
      (∀ v, j = .val v → P nm v) ∧ FieldsProp P j := by
  intro count
  induction count with
  | zero =>
    intro i st nm j h
    exact absurd h (by simp [genFields])
  | succ c ih =>
    intro i st nm j h
    simp only [genFields] at h
    rcases List.mem_cons.mp h with h2 | h2
    · injection h2 with hnm hj
      subst hnm
      refine ⟨?_, ?_⟩
      · intro v hv
        rw [hj] at hv
        injection hv with hv2
        rw [← hv2]
        exact hstep i _ _
      · rw [hj]
        exact FieldsProp.val _
    · exact ih (i + 1) _ nm j h2

theorem generateObject_obj (O : Oracle) (flm : Option FLMap) (uul : Bool)
    (nl nf no nfld : Nat) (st : FakerState) :
    ∃ fs, (generateObject O flm uul nl nf no nfld st).1 = .obj fs := by
  cases nl with
  | zero => exact ⟨_, by rw [generateObject]⟩
  | succ k => exact ⟨_, by rw [generateObject]⟩

theorem generateSimpleObject_obj (O : Oracle) (flm : Option FLMap) (nf : Nat) (uul : Bool)
    (st : FakerState) :
    ∃ fs, (generateSimpleObject O flm nf uul st).1 = .obj fs :=
  ⟨_, rfl⟩

theorem generateObject_fieldsProp (O : Oracle) (flm : Option FLMap) (uul : Bool)
    (P : String → Value → Prop)
    (hstep : ∀ (i : Nat) (rawv : Value) (st : FakerState),
      P (fieldNameAt i)
        ((validateAndCleanFieldValue O flm (fieldNameAt i) rawv (fieldTypeAt i) uul st).1)) :
    ∀ (nl nf no nfld : Nat) (st : FakerState),
      FieldsProp P (generateObject O flm uul nl nf no nfld st).1 := by
  intro nl
  induction nl using Nat.strong_induction_on with
  | _ nl ih =>
    intro nf no nfld st
    cases nl with
    | zero =>
      rw [generateObject]
      exact FieldsProp.obj _
        (fun nm v hm => (genFields_prop O flm uul P hstep nf 0 st nm (.val v) hm).1 v rfl)
        (fun nm j hm => (genFields_prop O flm uul P hstep nf 0 st nm j hm).2)
    | succ k =>
      have hnested : ∀ (count i : Nat) (st2 : FakerState) (nm : String) (j : Json),
          (nm, j) ∈ (genNestedObjects O flm uul k no nfld count i st2).1 →
          (∀ v, j = .val v → P nm v) ∧ FieldsProp P j := by
        intro count
        induction count with
        | zero =>
          intro i st2 nm j h
          exact absurd h (by simp [genNestedObjects])
        | succ c ihc =>
          intro i st2 nm j h
          simp only [genNestedObjects] at h
          rcases List.mem_cons.mp h with h2 | h2
          · injection h2 with hnm hj
            by_cases hk : 0 < k
            · rw [if_pos hk] at hj
              obtain ⟨fs, hfs⟩ := generateObject_obj O flm uul k nfld no nfld st2
              refine ⟨?_, ?_⟩
              · intro v hv
                rw [hj, hfs] at hv
                exact absurd hv (by simp)
              · rw [hj]
                exact ih k (by omega) nfld no nfld st2
            · rw [if_neg hk] at hj
              obtain ⟨fs, hfs⟩ := generateSimpleObject_obj O flm nfld uul st2
              refine ⟨?_, ?_⟩
              · intro v hv
                rw [hj, hfs] at hv
                exact absurd hv (by simp)
              · rw [hj]
                unfold generateSimpleObject
                exact FieldsProp.obj _
                  (fun nm2 v2 hj2 =>
                    (genFields_prop O flm uul P hstep nfld 0 st2 nm2 (.val v2) hj2).1 v2 rfl)
                  (fun nm2 j2 hj2 => (genFields_prop O flm uul P hstep nfld 0 st2 nm2 j2 hj2).2)
          · exact ihc (i + 1) _ nm j h2
      rw [generateObject]
      apply FieldsProp.obj
      · intro nm v hm
        rcases List.mem_append.mp hm with h2 | h2
        · exact (genFields_prop O flm uul P hstep nf 0 st nm (.val v) h2).1 v rfl
        · exact (hnested no 0 _ nm (.val v) h2).1 v rfl
      · intro nm j hm
        rcases List.mem_append.mp hm with h2 | h2
        · exact (genFields_prop O flm uul P hstep nf 0 st nm j h2).2
        · exact (hnested no 0 _ nm j h2).2

theorem genRecords_fieldsProp (O : Oracle) (flm : Option FLMap) (uul : Bool)
    (nl nf no nfld : Nat) (seed : Option Nat) (P : String → Value → Prop)
    (hstep : ∀ (i : Nat) (rawv : Value) (st : FakerState),
      P (fieldNameAt i)
        ((validateAndCleanFieldValue O flm (fieldNameAt i) rawv (fieldTypeAt i) uul st).1)) :
    ∀ (count i : Nat) (st : FakerState),
      ∀ rec ∈ (genRecords O flm uul nl nf no nfld seed count i st).1, FieldsProp P rec := by
  intro count
  induction count with
  | zero =>
    intro i st rec h
    exact absurd h (by simp [genRecords])
  | succ c ihc =>
    intro i st rec h
    simp only [genRecords] at h
    rcases List.mem_cons.mp h with h2 | h2
    · rw [h2]
      exact generateObject_fieldsProp O flm uul P hstep nl nf no nfld _
    · exact ihc (i + 1) _ rec h2

theorem generateRealisticData_fieldsProp (O : Oracle) (g : Option FLMap)
    (nf no nl nr nfld : Nat) (uul : Bool) (seed : Option Nat) (st : FakerState)
    (P : String → Value → Prop)
    (hstep : ∀ (flm : Option FLMap) (i : Nat) (rawv : Value) (st2 : FakerState),
      P (fieldNameAt i)
        ((validateAndCleanFieldValue O flm (fieldNameAt i) rawv (fieldTypeAt i) uul st2).1)) :
    ∀ rec ∈ (generateRealisticData O g nf no nl nr nfld uul seed st).1, FieldsProp P rec := by
  simp only [generateRealisticData]
  exact genRecords_fieldsProp O _ uul nl nf no nfld seed P (hstep _) nr 0 _

/-! ## Emoji-freeness of cleaned values -/

/-- No character of the list falls in the emoji ranges. -/
def noEmoji (s : List Char) : Prop := ∀ c ∈ s, isEmojiChar c = false

theorem noEmoji_of_ascii {s : List Char} (h : ∀ c ∈ s, c.toNat < 128) : noEmoji s :=
  fun c hc => isEmojiChar_eq_false_of_lt (Nat.lt_trans (h c hc) (by norm_num))

theorem digitChar_toNat_lt (d : Nat) : (digitChar d).toNat < 128 := by
  unfold digitChar
  split <;> decide

theorem natChars_ascii (n : Nat) : ∀ c ∈ natChars n, c.toNat < 128 := by
  intro c hc
  unfold natChars at hc
  by_cases h0 : n = 0
  · rw [if_pos h0] at hc
    rcases List.mem_singleton.mp hc with rfl
    decide
  · rw [if_neg h0] at hc
    rcases List.mem_reverse.mp hc with hc2
    obtain ⟨d, _, rfl⟩ := List.mem_map.mp hc2
    exact digitChar_toNat_lt d

theorem intChars_ascii (n : Int) : ∀ c ∈ intChars n, c.toNat < 128 := by
  intro c hc
  unfold intChars at hc
  by_cases hneg : n < 0
  · rw [if_pos hneg] at hc
    rcases List.mem_cons.mp hc with rfl | hc2
    · decide
    · exact natChars_ascii _ c hc2
  · rw [if_neg hneg] at hc
    exact natChars_ascii _ c hc

theorem mem_dropWhile {p : Char → Bool} {c : Char} :
    ∀ {l : List Char}, c ∈ List.dropWhile p l → c ∈ l := by
  intro l
  induction l with
  | nil => intro h; exact absurd h (by simp)
  | cons a t ih =>
    intro h
    simp only [List.dropWhile] at h
    by_cases hp : p a
    · rw [hp] at h
      exact List.mem_cons_of_mem _ (ih h)
    · rw [Bool.eq_false_iff.mpr hp] at h
      exact h

theorem mem_jsTrim {c : Char} {l : List Char} (h : c ∈ jsTrim l) : c ∈ l := by
  unfold jsTrim at h
  have h1 := List.mem_reverse.mp h
  have h2 := mem_dropWhile h1
  have h3 := List.mem_reverse.mp h2
  exact mem_dropWhile h3

theorem noEmoji_removeEmojis (s : List Char) :
    noEmoji (jsTrim (s.filter (fun c => !isEmojiChar c))) := by
  intro c hc
  have h1 := mem_jsTrim hc
  have h2 := (List.mem_filter.mp h1).2
  simpa using h2

theorem additionalChars_noEmoji : noEmoji additionalChars := by
  intro c hc
  fin_cases hc <;> decide

theorem noEmoji_valueChars_of_str {v : Value} {s : List Char}
    (hvc : noEmoji (valueChars v)) (hv : v = .str s) : noEmoji s := by
  intro c hc
  apply hvc
  rw [hv]
  exact hc

theorem enforceUniformLength_noEmoji (O : Oracle) (flm : Option FLMap) (v : Value)
    (t : String) (uul : Bool) (st : FakerState) (hvc : noEmoji (valueChars v)) :
    ∀ s, (enforceUniformLength O flm v t uul st).1 = .str s → noEmoji s := by
  unfold enforceUniformLength
  cases flm with
  | none => exact fun s hs => noEmoji_valueChars_of_str hvc hs
  | some m =>
    cases uul with
    | false => exact fun s hs => noEmoji_valueChars_of_str hvc hs
    | true =>
      cases hc : flmLookup t m with
      | none =>
        simp only [hc]
        exact fun s hs => noEmoji_valueChars_of_str hvc hs
      | some entry =>
        cases entry with
        | none =>
          simp only [hc]
          exact fun s hs => noEmoji_valueChars_of_str hvc hs
        | some L =>
          simp only [hc]
          by_cases hns : isStringFieldType t = false
          · rw [if_pos hns]
            exact fun s hs => noEmoji_valueChars_of_str hvc hs
          · rw [if_neg hns]
            by_cases hgt : (valueChars v).length > L
            · rw [if_pos hgt]
              intro s hs
              injection hs with hs2
              intro c hc2
              rw [← hs2] at hc2
              exact hvc c (List.mem_of_mem_take hc2)
            · rw [if_neg hgt]
              by_cases hlt : (valueChars v).length < L
              · rw [if_pos hlt]
                intro s hs
                injection hs with hs2
                intro c hc2
                rw [← hs2] at hc2
                rcases padLoop_chars O L (valueChars v) st c hc2 with h2 | h2
                · exact hvc c h2
                · exact additionalChars_noEmoji c h2
              · rw [if_neg hlt]
                intro s hs
                injection hs with hs2
                rw [← hs2]
                exact hvc

theorem cleanEmoji_noEmoji (name : String) (v : Value)
    (hname : listStartsWith (jsToLower name) emojiWord = false) :
    noEmoji (valueChars (cleanEmoji name v)) := by
  unfold cleanEmoji
  rw [hname]
  simp only [Bool.not_false, Bool.true_and]
  by_cases hce : containsEmoji v = true
  · rw [if_pos hce]
    cases v with
    | str s0 => exact noEmoji_removeEmojis s0
    | num n => exact absurd hce (by simp [containsEmoji])
    | bool b => exact absurd hce (by simp [containsEmoji])
  · rw [if_neg hce]
    cases v with
    | str s0 =>
      intro c hc
      cases hemo : isEmojiChar c with
      | false => rfl
      | true =>
        exact absurd (show containsEmoji (.str s0) = true by
          simpa [containsEmoji] using List.any_eq_true.mpr ⟨c, hc, hemo⟩) hce
    | num n => exact noEmoji_of_ascii (intChars_ascii n)
    | bool b =>
      cases b with
      | true => exact noEmoji_of_ascii (fun c hc => by fin_cases hc <;> decide)
      | false => exact noEmoji_of_ascii (fun c hc => by fin_cases hc <;> decide)

/-- `validateAndCleanFieldValue` either returns the emoji-cleaned value
directly or hands it to `enforceUniformLength`. -/
theorem validateAndClean_cases (O : Oracle) (flm : Option FLMap) (name : String)
    (v : Value) (t : String) (uul : Bool) (st : FakerState) :
    validateAndCleanFieldValue O flm name v t uul st = (cleanEmoji name v, st) ∨
    ∃ m, flm = some m ∧ uul = true ∧
      validateAndCleanFieldValue O flm name v t uul st =
        enforceUniformLength O (some m) (cleanEmoji name v) t uul st := by
  unfold validateAndCleanFieldValue
  cases flm with
  | none => exact Or.inl rfl
  | some m =>
    cases uul with
    | false => exact Or.inl rfl
    | true =>
      cases hc : flmLookup t m with
      | none =>
        simp only [hc]
        exact Or.inl trivial
      | some entry =>
        cases entry with
        | none =>
          simp only [hc]
          exact Or.inl trivial
        | some L =>
          simp only [hc]
          exact Or.inr ⟨m, by trivial, by trivial, by trivial⟩

theorem validateAndClean_noEmoji (O : Oracle) (flm : Option FLMap) (name : String)
    (v : Value) (t : String) (uul : Bool) (st : FakerState)
    (hname : listStartsWith (jsToLower name) emojiWord = false) :
    ∀ s, (validateAndCleanFieldValue O flm name v t uul st).1 = .str s → noEmoji s := by
  intro s hs
  have hvc : noEmoji (valueChars (cleanEmoji name v)) := cleanEmoji_noEmoji name v hname
  rcases validateAndClean_cases O flm name v t uul st with hcase | ⟨m, _, huul2, hcase⟩
  · rw [hcase] at hs
    exact noEmoji_valueChars_of_str hvc hs
  · rw [hcase] at hs
    exact enforceUniformLength_noEmoji O (some m) _ t uul st hvc s hs

/-! ## A concrete generated page used as fixture for the generator claims -/

/-- The single record produced by the fixtures below: with `trivOracle` every
raw value is the one-character string `a`, so both fields carry it. -/
def recAA : Json :=
  .obj [("uuid_1", .val (.str ['a'])), ("firstName_2", .val (.str ['a']))]

/-- A concrete one-entry length schema targeting length 1 for `firstName`. -/
def M0 : FLMap := [("firstName", some 1)]

set_option maxRecDepth 10000 in
theorem genNat_eval :
    (generateRealisticData trivOracle none 2 0 0 1 3 false (some 7) ⟨0, 0⟩).1 = [recAA] := by
  simp only [generateRealisticData, genRecords, generateObject, genFields, generateFieldValue,
    validateAndCleanFieldValue, cleanEmoji, trivOracle, recAA]
  norm_num [fieldNameAt, fieldTypeAt, FIELD_TYPES]
  decide

set_option maxRecDepth 40000 in
theorem genUni_eval :
    (generateRealisticData trivOracle (some M0) 2 0 0 1 3 true (some 7) ⟨0, 0⟩).1 = [recAA] := by
  simp only [generateRealisticData, genRecords, generateObject, genFields, generateFieldValue,
    validateAndCleanFieldValue, cleanEmoji, enforceUniformLength, trivOracle, recAA, M0]
  norm_num [fieldNameAt, fieldTypeAt, FIELD_TYPES, flmEmpty, flmLookup, isStringFieldType,
    nonStringFieldTypes, containsEmoji]
  decide

/-! ## Claim C10: emoji stripping -/

/-- C10: in every generated record, at every nesting depth, every string value
of a field whose name does not start with `emoji` (case-insensitively) contains
no character matched by the emoji Unicode-range regex: emoji are stripped
before any length normalization, and normalization only truncates or pads from
an emoji-free alphanumeric alphabet. -/
theorem no_emoji_outside_emoji_fields (O : Oracle) (g : Option FLMap)
    (nf no nl nr nfld : Nat) (uul : Bool) (seed : Option Nat) (st : FakerState) :
    ∀ rec ∈ (generateRealisticData O g nf no nl nr nfld uul seed st).1,
      FieldsProp (fun nm v => listStartsWith (jsToLower nm) emojiWord = false →
        ∀ s, v = .str s → ∀ c ∈ s, isEmojiChar c = false) rec := by
  apply generateRealisticData_fieldsProp
  intro flm i rawv st2 hname s hv
  exact validateAndClean_noEmoji O flm (fieldNameAt i) rawv (fieldTypeAt i) uul st2 hname s
    (by rw [hv])

/-- Witness for C10: the concrete record of a concrete generated page contains
no emoji in its (non-emoji-named) string fields. -/
theorem no_emoji_outside_emoji_fields_witness :
    recAA ∈ (generateRealisticData trivOracle none 2 0 0 1 3 false (some 7) ⟨0, 0⟩).1 ∧
      FieldsProp (fun nm v => listStartsWith (jsToLower nm) emojiWord = false →
        ∀ s, v = .str s → ∀ c ∈ s, isEmojiChar c = false) recAA := by
  have hmem : recAA ∈ (generateRealisticData trivOracle none 2 0 0 1 3 false (some 7) ⟨0, 0⟩).1 := by
    rw [genNat_eval]
    exact List.mem_singleton.mpr rfl
  exact ⟨hmem,
    no_emoji_outside_emoji_fields trivOracle none 2 0 0 1 3 false (some 7) ⟨0, 0⟩ recAA hmem⟩

/-! ## Field type from generated field names -/

theorem jsSplitU_head_append {l : List Char} (r : List Char) (hl : '_' ∉ l) :
    (jsSplitU (l ++ '_' :: r)).headD [] = l := by
  induction l with
  | nil =>
    show (jsSplitU ('_' :: r)).headD [] = []
    have : jsSplitU ('_' :: r) = [] :: jsSplitU r := by
      show (if '_' = '_' then [] :: jsSplitU r else _) = _
      rw [if_pos rfl]
    rw [this]
    rfl
  | cons c l2 ih =>
    have hc : c ≠ '_' := fun hcc => hl (hcc ▸ List.mem_cons_self c l2)
    have hl2 : '_' ∉ l2 := fun hm => hl (List.mem_cons_of_mem c hm)
    have hne := jsSplitU_decomp (l2 ++ '_' :: r)
    obtain ⟨pre, hp, _⟩ := hne
    have hstep : jsSplitU (c :: (l2 ++ '_' :: r)) =
        match jsSplitU (l2 ++ '_' :: r) with
        | [] => [[c]]
        | a :: t => (c :: a) :: t := by
      show (if c = '_' then _ else _) = _
      rw [if_neg hc]
    match hx : jsSplitU (l2 ++ '_' :: r) with
    | [] =>
      rw [hx] at hp
      exact absurd hp (by simp)
    | a :: t =>
      have ha : a = l2 := by
        have := ih hl2
        rw [hx] at this
        exact this
      rw [List.cons_append, hstep, hx]
      show c :: a = c :: l2
      rw [ha]

theorem FIELD_TYPES_no_underscore : ∀ t ∈ FIELD_TYPES, '_' ∉ t.data := by
  decide

theorem fieldTypeAt_mem (i : Nat) : fieldTypeAt i ∈ FIELD_TYPES := by
  unfold fieldTypeAt
  have hlen : 0 < FIELD_TYPES.length := by decide
  have hi : i % FIELD_TYPES.length < FIELD_TYPES.length := Nat.mod_lt i hlen
  rw [List.getD_eq_getElem _ _ hi]
  exact List.getElem_mem _

theorem fieldTypeOfName_fieldNameAt (i : Nat) :
    fieldTypeOfName (fieldNameAt i) = fieldTypeAt i := by
  unfold fieldTypeOfName fieldNameAt
  have hdata : (fieldTypeAt i ++ "_" ++ toString (i + 1)).data =
      (fieldTypeAt i).data ++ '_' :: (toString (i + 1)).data := by
    show ((fieldTypeAt i ++ "_") ++ toString (i + 1)).data = _
    rw [String.data_append, String.data_append, List.append_assoc]
    rfl
  rw [hdata, jsSplitU_head_append _ (FIELD_TYPES_no_underscore _ (fieldTypeAt_mem i))]
  rfl

/-! ## Length enforcement produces strings of exactly the target length -/

theorem enforceUniformLength_targetLength (O : Oracle) (m : FLMap) (v : Value) (t : String)
    (st : FakerState) (L : Nat) (hlk : flmLookup t m = some (some L))
    (hstr : isStringFieldType t = true) :
    ∃ s, (enforceUniformLength O (some m) v t true st).1 = .str s ∧ s.length = L := by
  unfold enforceUniformLength
  simp only [hlk]
  rw [if_neg (by rw [hstr]; simp)]
  by_cases hgt : (valueChars v).length > L
  · rw [if_pos hgt]
    refine ⟨_, rfl, ?_⟩
    rw [List.length_take]
    omega
  · rw [if_neg hgt]
    by_cases hlt : (valueChars v).length < L
    · rw [if_pos hlt]
      exact ⟨_, rfl, padLoop_length O L _ st (by omega)⟩
    · rw [if_neg hlt]
      exact ⟨_, rfl, by omega⟩

theorem validateAndClean_targetLength (O : Oracle) (m : FLMap) (name : String) (v : Value)
    (t : String) (st : FakerState) (L : Nat) (hlk : flmLookup t m = some (some L))
    (hstr : isStringFieldType t = true) :
    ∃ s, (validateAndCleanFieldValue O (some m) name v t true st).1 = .str s ∧
      s.length = L := by
  unfold validateAndCleanFieldValue
  simp only [hlk]
  exact enforceUniformLength_targetLength O m (cleanEmoji name v) t st L hlk hstr

/-! ## Claim C2: the uniform-length invariant -/

/-- C2: in uniform-length mode with a sampled length schema `M` (which carries
the never-normalize sentinel on every non-string-classified tag), every scalar
field of every generated record whose field type `M` maps to a numeric target
length `L` is a string of length exactly `L`: longer values are truncated to
`L` and shorter values are right-padded from the fixed alphanumeric alphabet. -/
theorem uniform_length_invariant (O : Oracle) (M : FLMap) (hM : NullOnNonString M)
    (hne : M ≠ []) (nf no nl nr nfld sd : Nat) (st : FakerState) :
    ∀ rec ∈ (generateRealisticData O (some M) nf no nl nr nfld true (some sd) st).1,
      FieldsProp (fun nm v => ∀ L, flmLookup (fieldTypeOfName nm) M = some (some L) →
        ∃ s, v = .str s ∧ s.length = L) rec := by
  have hempty : flmEmpty (some M) = false := by
    cases M with
    | nil => exact absurd rfl hne
    | cons a t => rfl
  simp only [generateRealisticData, hempty, Bool.false_eq_true, if_false, if_true]
  apply genRecords_fieldsProp
  intro i rawv st2
  intro L hlk
  rw [fieldTypeOfName_fieldNameAt i] at hlk
  have hmem := flmLookup_mem hlk
  have hstr : isStringFieldType (fieldTypeAt i) = true := by
    cases hh : isStringFieldType (fieldTypeAt i) with
    | true => rfl
    | false => exact absurd (hM (fieldTypeAt i, some L) hmem hh) (by simp)
  exact validateAndClean_targetLength O M (fieldNameAt i) rawv (fieldTypeAt i) st2 L hlk hstr

/-- Witness for C2: with the concrete schema `M0` mapping `firstName` to length
1, the concrete generated record satisfies the uniform-length invariant. -/
theorem uniform_length_invariant_witness :
    NullOnNonString M0 ∧ M0 ≠ [] ∧
    recAA ∈ (generateRealisticData trivOracle (some M0) 2 0 0 1 3 true (some 7) ⟨0, 0⟩).1 ∧
    FieldsProp (fun nm v => ∀ L, flmLookup (fieldTypeOfName nm) M0 = some (some L) →
      ∃ s, v = .str s ∧ s.length = L) recAA := by
  have hM : NullOnNonString M0 := by
    unfold NullOnNonString M0
    decide
  have hne : M0 ≠ [] := by decide
  have hmem : recAA ∈ (generateRealisticData trivOracle (some M0) 2 0 0 1 3 true (some 7)
      ⟨0, 0⟩).1 := by
    rw [genUni_eval]
    exact List.mem_singleton.mpr rfl
  exact ⟨hM, hne, hmem,
    uniform_length_invariant trivOracle M0 hM hne 2 0 0 1 3 7 ⟨0, 0⟩ recAA hmem⟩

/-! ## Claim C1: deterministic page regeneration -/

/-- The replay loop: issue the same continuation request `(sid, p)` once per
timestamp in `ts`, threading the ambient controller state between requests. -/
def runSameRequest (O : Oracle) (fresh sid : String) (p : Int) :
    List Nat → Store → Option FLMap → FakerState →
      List Response × Store × Option FLMap × FakerState
  | [], store, g, fak => ([], store, g, fak)
  | t :: ts, store, g, fak =>
    let r := handlePaginatedRequest O t fresh (continueReq sid p) store g fak
    let rest := runSameRequest O fresh sid p ts r.2.1 r.2.2.1 r.2.2.2
    (r.1 :: rest.1, rest.2)

/-- The session does not expire along the request times `ts`: each request comes
no later than the deadline current when it arrives, and each successful lookup
slides the deadline to the request time plus `SCHEMA_TTL`. -/
def notExpiredChain : Nat → List Nat → Bool
  | _, [] => true
  | dl, t :: ts => decide (t ≤ dl) && notExpiredChain (t + SCHEMA_TTL) ts

theorem runSame_aux (O : Oracle) (fresh sid : String) (p : Int) (cfg0 : SessionConfig)
    (flm0 : Option FLMap) (hsid : sid ≠ "") (hp1 : 1 ≤ p)
    (hWF0 : cfg0.uniformFieldLength = true → ∃ m, flm0 = some m ∧ m ≠ [])
    (hin : ¬ p > (jsCeilPages cfg0.totalRecords cfg0.recordsPerPage : Int)) :
    ∀ (ts : List Nat) (store : Store) (g : Option FLMap) (fak : FakerState) (d : CachedData),
      storeLookup sid store = some d → d.config = cfg0 → d.fieldLengthMap = flm0 →
      notExpiredChain d.expiresAt ts = true →
      (runSameRequest O fresh sid p ts store g fak).1 =
        ts.map (fun _ => Response.ok sid (pageRecords O cfg0 flm0 sid p) (pageMeta cfg0 p)) := by
  intro ts
  induction ts with
  | nil =>
    intro store g fak d _ _ _ _
    rfl
  | cons t ts ih =>
    intro store g fak d hlook hcfg hflm hchain
    simp only [notExpiredChain, Bool.and_eq_true, decide_eq_true_eq] at hchain
    obtain ⟨hle, hrest⟩ := hchain
    simp only [runSameRequest, List.map_cons]
    rw [handle_continue O t fresh store g fak sid p d hsid hp1 hlook hle]
    have hin2 : ¬ p > (jsCeilPages d.config.totalRecords d.config.recordsPerPage : Int) := by
      rw [hcfg]
      exact hin
    have hWF2 : d.config.uniformFieldLength = true →
        ∃ m, d.fieldLengthMap = some m ∧ m ≠ [] := by
      rw [hcfg, hflm]
      exact hWF0
    rw [generatePage_in_range_fst O sid p d.config d.fieldLengthMap
      (storeSet sid { d with expiresAt := t + SCHEMA_TTL } store) g fak hWF2 hin2]
    rw [generatePage_in_range_store O sid p d.config d.fieldLengthMap
      (storeSet sid { d with expiresAt := t + SCHEMA_TTL } store) g fak hin2]
    rw [hcfg, hflm]
    congr 1
    exact ih _ _ _ _ (storeLookup_set_self _ _ _) rfl rfl hrest

/-- C1: for a fixed stored session configuration (and, in uniform mode, its
fixed nonempty sampled length schema), replaying the same in-range page request
`(sid, p)` any number of times (in particular N ≥ 2) yields the identical
success response every time — the records are a function of `(sid, p)` and the
stored session state only — as long as each request arrives before the
session's current expiry, which each request itself slides forward. -/
theorem deterministic_page_regeneration (O : Oracle) (fresh sid : String) (p : Int)
    (store : Store) (g : Option FLMap) (fak : FakerState) (d : CachedData) (ts : List Nat)
    (hsid : sid ≠ "") (hp1 : 1 ≤ p) (hN : 2 ≤ ts.length)
    (hlook : storeLookup sid store = some d) (hWF : WFCached d)
    (hin : p ≤ (jsCeilPages d.config.totalRecords d.config.recordsPerPage : Int))
    (hchain : notExpiredChain d.expiresAt ts = true) :
    (runSameRequest O fresh sid p ts store g fak).1 =
      ts.map (fun _ => Response.ok sid (pageRecords O d.config d.fieldLengthMap sid p)
        (pageMeta d.config p)) :=
  runSame_aux O fresh sid p d.config d.fieldLengthMap hsid hp1 hWF (by omega)
    ts store g fak d hlook rfl rfl hchain

/-- Witness for C1: replaying page 1 of the concrete live session twice, at
times 500 and 600, yields the same success response both times. -/
theorem deterministic_page_regeneration_witness :
    "session_1_abc" ≠ "" ∧ (1 : Int) ≤ 1 ∧ 2 ≤ [500, 600].length ∧
    storeLookup "session_1_abc" storeA = some dataA ∧ WFCached dataA ∧
    (1 : Int) ≤ (jsCeilPages dataA.config.totalRecords dataA.config.recordsPerPage : Int) ∧
    notExpiredChain dataA.expiresAt [500, 600] = true ∧
    (runSameRequest trivOracle "fresh" "session_1_abc" 1 [500, 600] storeA none ⟨0, 0⟩).1 =
      [500, 600].map (fun _ => Response.ok "session_1_abc"
        (pageRecords trivOracle dataA.config dataA.fieldLengthMap "session_1_abc" 1)
        (pageMeta dataA.config 1)) := by
  refine ⟨by decide, by decide, by decide, rfl, fun h => absurd h (by decide), by decide,
    by decide, ?_⟩
  exact deterministic_page_regeneration trivOracle "fresh" "session_1_abc" 1 storeA none
    ⟨0, 0⟩ dataA [500, 600] (by decide) (by decide) (by decide) rfl
    (fun h => absurd h (by decide)) (by decide) (by decide)

end DataGen
